import Mathlib


/-!
# Verification of the sheildchat real-time messaging core

This file is a shallow embedding, in Lean 4, of the parts of the repository
that the specification's claims are about:

* `src/config/encryption.js` — AES-256-CBC message encryption. The cipher the
  source calls through node's `crypto` module (`aes-256-cbc` with PKCS#7
  padding, key = SHA-256 of the configured secret) is embedded here in full:
  SHA-256, the AES-256 block cipher, CBC chaining and PKCS#7 padding are all
  spelled out over byte lists (`Fin 256`). Hex encoding of ciphertext and iv
  is elided: the wire format is a bijective hex rendering of the byte lists
  modelled here, so "a byte of the ciphertext" is modelled directly.
* the socket configuration module (`src/unnamed/part_004`) — payload
  validators, the `safeCallback` once-guard, the `message:send`,
  `register`, `message:read` and friend-notification handlers, the
  `connectedUsers` presence registry and the room-based delivery model.
  Handlers are embedded as pure functions from their inputs (and the relevant
  collaborator state: user table, message table, room memberships) to the
  effects they perform (store calls, emitted events, acknowledgment).
  JavaScript dynamic values appearing in payloads are modelled by `JVal`;
  JS numbers are modelled as integers (the handlers only ever see integer
  ids), and string length is modelled as character count.
* the client reconnection layer (`src/unnamed/part_008`) — the
  `pendingMessages` map, `sendMessage`'s acknowledgment path and the
  `resendPendingMessages`/`sendMessageAsync` replay path.
-/

/-! ## Bytes and the GF(2^8) helpers used by AES -/

abbrev Byte := Fin 256

def bxor (x y : Byte) : Byte :=
  ⟨x.val ^^^ y.val, @Nat.xor_lt_two_pow x.val y.val 8 x.isLt y.isLt⟩

/-- `xtime`: multiplication by x in GF(2^8) with the AES reduction
polynomial x^8 + x^4 + x^3 + x + 1 (0x11b); `283 = 0x11b`, so the xor both
clears the overflow bit and applies the reduction. -/
def xtime (x : Byte) : Byte :=
  ⟨(if 128 ≤ x.val then (2 * x.val) ^^^ 283 else 2 * x.val) % 256,
   Nat.mod_lt _ (by norm_num)⟩

/-! ## The AES S-boxes (FIPS-197) -/

def sboxTable : List Byte :=
  [99, 124, 119, 123, 242, 107, 111, 197, 48, 1, 103, 43, 254, 215, 171, 118,
   202, 130, 201, 125, 250, 89, 71, 240, 173, 212, 162, 175, 156, 164, 114, 192,
   183, 253, 147, 38, 54, 63, 247, 204, 52, 165, 229, 241, 113, 216, 49, 21,
   4, 199, 35, 195, 24, 150, 5, 154, 7, 18, 128, 226, 235, 39, 178, 117,
   9, 131, 44, 26, 27, 110, 90, 160, 82, 59, 214, 179, 41, 227, 47, 132,
   83, 209, 0, 237, 32, 252, 177, 91, 106, 203, 190, 57, 74, 76, 88, 207,
   208, 239, 170, 251, 67, 77, 51, 133, 69, 249, 2, 127, 80, 60, 159, 168,
   81, 163, 64, 143, 146, 157, 56, 245, 188, 182, 218, 33, 16, 255, 243, 210,
   205, 12, 19, 236, 95, 151, 68, 23, 196, 167, 126, 61, 100, 93, 25, 115,
   96, 129, 79, 220, 34, 42, 144, 136, 70, 238, 184, 20, 222, 94, 11, 219,
   224, 50, 58, 10, 73, 6, 36, 92, 194, 211, 172, 98, 145, 149, 228, 121,
   231, 200, 55, 109, 141, 213, 78, 169, 108, 86, 244, 234, 101, 122, 174, 8,
   186, 120, 37, 46, 28, 166, 180, 198, 232, 221, 116, 31, 75, 189, 139, 138,
   112, 62, 181, 102, 72, 3, 246, 14, 97, 53, 87, 185, 134, 193, 29, 158,
   225, 248, 152, 17, 105, 217, 142, 148, 155, 30, 135, 233, 206, 85, 40, 223,
   140, 161, 137, 13, 191, 230, 66, 104, 65, 153, 45, 15, 176, 84, 187, 22]

def invSboxTable : List Byte :=
  [82, 9, 106, 213, 48, 54, 165, 56, 191, 64, 163, 158, 129, 243, 215, 251,
   124, 227, 57, 130, 155, 47, 255, 135, 52, 142, 67, 68, 196, 222, 233, 203,
   84, 123, 148, 50, 166, 194, 35, 61, 238, 76, 149, 11, 66, 250, 195, 78,
   8, 46, 161, 102, 40, 217, 36, 178, 118, 91, 162, 73, 109, 139, 209, 37,
   114, 248, 246, 100, 134, 104, 152, 22, 212, 164, 92, 204, 93, 101, 182, 146,
   108, 112, 72, 80, 253, 237, 185, 218, 94, 21, 70, 87, 167, 141, 157, 132,
   144, 216, 171, 0, 140, 188, 211, 10, 247, 228, 88, 5, 184, 179, 69, 6,
   208, 44, 30, 143, 202, 63, 15, 2, 193, 175, 189, 3, 1, 19, 138, 107,
   58, 145, 17, 65, 79, 103, 220, 234, 151, 242, 207, 206, 240, 180, 230, 115,
   150, 172, 116, 34, 231, 173, 53, 133, 226, 249, 55, 232, 28, 117, 223, 110,
   71, 241, 26, 113, 29, 41, 197, 137, 111, 183, 98, 14, 170, 24, 190, 27,
   252, 86, 62, 75, 198, 210, 121, 32, 154, 219, 192, 254, 120, 205, 90, 244,
   31, 221, 168, 51, 136, 7, 199, 49, 177, 18, 16, 89, 39, 128, 236, 95,
   96, 81, 127, 169, 25, 181, 74, 13, 45, 229, 122, 159, 147, 201, 156, 239,
   160, 224, 59, 77, 174, 42, 245, 176, 200, 235, 187, 60, 131, 83, 153, 97,
   23, 43, 4, 126, 186, 119, 214, 38, 225, 105, 20, 99, 85, 33, 12, 125]

def sbox (b : Byte) : Byte := sboxTable.getD b.val 0

def invSbox (b : Byte) : Byte := invSboxTable.getD b.val 0

/-- Multiplication by 2 in GF(2^8). -/
def g2 (x : Byte) : Byte := xtime x

/-- Multiplication by 3 = 2 + 1 in GF(2^8). -/
def g3 (x : Byte) : Byte := bxor (xtime x) x

/-- Multiplication by 9 = 8 + 1 in GF(2^8). -/
def g9 (x : Byte) : Byte := bxor (xtime (xtime (xtime x))) x

/-- Multiplication by 11 = 8 + 2 + 1 in GF(2^8). -/
def g11 (x : Byte) : Byte := bxor (xtime (xtime (xtime x))) (bxor (xtime x) x)

/-- Multiplication by 13 = 8 + 4 + 1 in GF(2^8). -/
def g13 (x : Byte) : Byte := bxor (xtime (xtime (xtime x))) (bxor (xtime (xtime x)) x)

/-- Multiplication by 14 = 8 + 4 + 2 in GF(2^8). -/
def g14 (x : Byte) : Byte := bxor (xtime (xtime (xtime x))) (bxor (xtime (xtime x)) (xtime x))

/-- Column coefficient combination appearing on the diagonal of the product of
the InvMixColumns and MixColumns matrices; equals the identity. -/
def p1 (x : Byte) : Byte := bxor (g14 (g2 x)) (bxor (g11 x) (bxor (g13 x) (g9 (g3 x))))

/-- Off-diagonal coefficient combination (first form); equals zero. -/
def p2 (x : Byte) : Byte := bxor (g14 (g3 x)) (bxor (g11 (g2 x)) (bxor (g13 x) (g9 x)))

/-- Off-diagonal coefficient combination (second form); equals zero. -/
def p3 (x : Byte) : Byte := bxor (g14 x) (bxor (g11 (g3 x)) (bxor (g13 (g2 x)) (g9 x)))

/-- Off-diagonal coefficient combination (third form); equals zero. -/
def p4 (x : Byte) : Byte := bxor (g14 x) (bxor (g11 x) (bxor (g13 (g3 x)) (g9 (g2 x))))

/-! ## MixColumns / InvMixColumns on one column -/

def mc0 (a b c d : Byte) : Byte := bxor (g2 a) (bxor (g3 b) (bxor c d))

def mc1 (a b c d : Byte) : Byte := bxor a (bxor (g2 b) (bxor (g3 c) d))

def mc2 (a b c d : Byte) : Byte := bxor a (bxor b (bxor (g2 c) (g3 d)))

def mc3 (a b c d : Byte) : Byte := bxor (g3 a) (bxor b (bxor c (g2 d)))

def imc0 (a b c d : Byte) : Byte := bxor (g14 a) (bxor (g11 b) (bxor (g13 c) (g9 d)))

def imc1 (a b c d : Byte) : Byte := bxor (g9 a) (bxor (g14 b) (bxor (g11 c) (g13 d)))

def imc2 (a b c d : Byte) : Byte := bxor (g13 a) (bxor (g9 b) (bxor (g14 c) (g11 d)))

def imc3 (a b c d : Byte) : Byte := bxor (g11 a) (bxor (g13 b) (bxor (g9 c) (g14 d)))

/-! ## AES state operations (state = 16 bytes, column-major as in FIPS-197) -/

def subBytes (st : List Byte) : List Byte := st.map sbox

def invSubBytes (st : List Byte) : List Byte := st.map invSbox

def shiftRows (s : List Byte) : List Byte :=
  [s.getD 0 0, s.getD 5 0, s.getD 10 0, s.getD 15 0,
   s.getD 4 0, s.getD 9 0, s.getD 14 0, s.getD 3 0,
   s.getD 8 0, s.getD 13 0, s.getD 2 0, s.getD 7 0,
   s.getD 12 0, s.getD 1 0, s.getD 6 0, s.getD 11 0]

def invShiftRows (s : List Byte) : List Byte :=
  [s.getD 0 0, s.getD 13 0, s.getD 10 0, s.getD 7 0,
   s.getD 4 0, s.getD 1 0, s.getD 14 0, s.getD 11 0,
   s.getD 8 0, s.getD 5 0, s.getD 2 0, s.getD 15 0,
   s.getD 12 0, s.getD 9 0, s.getD 6 0, s.getD 3 0]

def mixColumns (s : List Byte) : List Byte :=
  [mc0 (s.getD 0 0) (s.getD 1 0) (s.getD 2 0) (s.getD 3 0),
   mc1 (s.getD 0 0) (s.getD 1 0) (s.getD 2 0) (s.getD 3 0),
   mc2 (s.getD 0 0) (s.getD 1 0) (s.getD 2 0) (s.getD 3 0),
   mc3 (s.getD 0 0) (s.getD 1 0) (s.getD 2 0) (s.getD 3 0),
   mc0 (s.getD 4 0) (s.getD 5 0) (s.getD 6 0) (s.getD 7 0),
   mc1 (s.getD 4 0) (s.getD 5 0) (s.getD 6 0) (s.getD 7 0),
   mc2 (s.getD 4 0) (s.getD 5 0) (s.getD 6 0) (s.getD 7 0),
   mc3 (s.getD 4 0) (s.getD 5 0) (s.getD 6 0) (s.getD 7 0),
   mc0 (s.getD 8 0) (s.getD 9 0) (s.getD 10 0) (s.getD 11 0),
   mc1 (s.getD 8 0) (s.getD 9 0) (s.getD 10 0) (s.getD 11 0),
   mc2 (s.getD 8 0) (s.getD 9 0) (s.getD 10 0) (s.getD 11 0),
   mc3 (s.getD 8 0) (s.getD 9 0) (s.getD 10 0) (s.getD 11 0),
   mc0 (s.getD 12 0) (s.getD 13 0) (s.getD 14 0) (s.getD 15 0),
   mc1 (s.getD 12 0) (s.getD 13 0) (s.getD 14 0) (s.getD 15 0),
   mc2 (s.getD 12 0) (s.getD 13 0) (s.getD 14 0) (s.getD 15 0),
   mc3 (s.getD 12 0) (s.getD 13 0) (s.getD 14 0) (s.getD 15 0)]

def invMixColumns (s : List Byte) : List Byte :=
  [imc0 (s.getD 0 0) (s.getD 1 0) (s.getD 2 0) (s.getD 3 0),
   imc1 (s.getD 0 0) (s.getD 1 0) (s.getD 2 0) (s.getD 3 0),
   imc2 (s.getD 0 0) (s.getD 1 0) (s.getD 2 0) (s.getD 3 0),
   imc3 (s.getD 0 0) (s.getD 1 0) (s.getD 2 0) (s.getD 3 0),
   imc0 (s.getD 4 0) (s.getD 5 0) (s.getD 6 0) (s.getD 7 0),
   imc1 (s.getD 4 0) (s.getD 5 0) (s.getD 6 0) (s.getD 7 0),
   imc2 (s.getD 4 0) (s.getD 5 0) (s.getD 6 0) (s.getD 7 0),
   imc3 (s.getD 4 0) (s.getD 5 0) (s.getD 6 0) (s.getD 7 0),
   imc0 (s.getD 8 0) (s.getD 9 0) (s.getD 10 0) (s.getD 11 0),
   imc1 (s.getD 8 0) (s.getD 9 0) (s.getD 10 0) (s.getD 11 0),
   imc2 (s.getD 8 0) (s.getD 9 0) (s.getD 10 0) (s.getD 11 0),
   imc3 (s.getD 8 0) (s.getD 9 0) (s.getD 10 0) (s.getD 11 0),
   imc0 (s.getD 12 0) (s.getD 13 0) (s.getD 14 0) (s.getD 15 0),
   imc1 (s.getD 12 0) (s.getD 13 0) (s.getD 14 0) (s.getD 15 0),
   imc2 (s.getD 12 0) (s.getD 13 0) (s.getD 14 0) (s.getD 15 0),
   imc3 (s.getD 12 0) (s.getD 13 0) (s.getD 14 0) (s.getD 15 0)]

/-- AddRoundKey: xor the state with a round key. -/
def ark (k st : List Byte) : List Byte := List.zipWith bxor st k

def zipxor (a b : List Byte) : List Byte := List.zipWith bxor a b

/-! ## Generic chunking (fuel-based structural recursion) -/

def chunksOf {α : Type} (n : Nat) : Nat → List α → List (List α)
  | 0, _ => []
  | _ + 1, [] => []
  | f + 1, l => l.take n :: chunksOf n f (l.drop n)

/-! ## SHA-256 (used by `src/config/encryption.js` to derive the AES key
from the configured secret) -/

def shaK : List Nat :=
  [1116352408, 1899447441, 3049323471, 3921009573, 961987163, 1508970993, 2453635748, 2870763221,
   3624381080, 310598401, 607225278, 1426881987, 1925078388, 2162078206, 2614888103, 3248222580,
   3835390401, 4022224774, 264347078, 604807628, 770255983, 1249150122, 1555081692, 1996064986,
   2554220882, 2821834349, 2952996808, 3210313671, 3336571891, 3584528711, 113926993, 338241895,
   666307205, 773529912, 1294757372, 1396182291, 1695183700, 1986661051, 2177026350, 2456956037,
   2730485921, 2820302411, 3259730800, 3345764771, 3516065817, 3600352804, 4094571909, 275423344,
   430227734, 506948616, 659060556, 883997877, 958139571, 1322822218, 1537002063, 1747873779,
   1955562222, 2024104815, 2227730452, 2361852424, 2428436474, 2756734187, 3204031479, 3329325298]

def shaH0 : List Nat :=
  [1779033703, 3144134277, 1013904242, 2773480762, 1359893119, 2600822924, 528734635, 1541459225]

def rotr32 (n x : Nat) : Nat := ((x >>> n) ||| (x <<< (32 - n))) % 4294967296

def smallSigma0 (x : Nat) : Nat := (rotr32 7 x) ^^^ (rotr32 18 x) ^^^ (x >>> 3)

def smallSigma1 (x : Nat) : Nat := (rotr32 17 x) ^^^ (rotr32 19 x) ^^^ (x >>> 10)

def bigSigma0 (x : Nat) : Nat := (rotr32 2 x) ^^^ (rotr32 13 x) ^^^ (rotr32 22 x)

def bigSigma1 (x : Nat) : Nat := (rotr32 6 x) ^^^ (rotr32 11 x) ^^^ (rotr32 25 x)

/-- Big-endian byte rendering of `n` on `k` bytes. -/
def bytesBE (k n : Nat) : List Nat := (List.range k).map (fun i => (n >>> (8 * (k - 1 - i))) % 256)

/-- Big-endian 32-bit word from (up to) four bytes. -/
def word4 (b : List Nat) : Nat :=
  ((b.getD 0 0) <<< 24) ||| ((b.getD 1 0) <<< 16) ||| ((b.getD 2 0) <<< 8) ||| b.getD 3 0

def sha256Pad (msg : List Nat) : List Nat :=
  msg ++ 128 :: List.replicate ((119 - msg.length % 64) % 64) 0 ++ bytesBE 8 (8 * msg.length)

def schedExtend : Nat → List Nat → List Nat
  | 0, w => w
  | f + 1, w =>
    let i := w.length
    schedExtend f (w ++
      [(smallSigma1 (w.getD (i - 2) 0) + w.getD (i - 7) 0 + smallSigma0 (w.getD (i - 15) 0)
        + w.getD (i - 16) 0) % 4294967296])

def shaRound (W : List Nat) (i : Nat) (st : List Nat) : List Nat :=
  match st with
  | [a, b, c, d, e, f, g, h] =>
    let t1 := (h + bigSigma1 e + ((e &&& f) ^^^ ((e ^^^ 4294967295) &&& g)) + shaK.getD i 0
      + W.getD i 0) % 4294967296
    let t2 := (bigSigma0 a + ((a &&& b) ^^^ (a &&& c) ^^^ (b &&& c))) % 4294967296
    [(t1 + t2) % 4294967296, a, b, c, (d + t1) % 4294967296, e, f, g]
  | _ => st

def shaRounds (W : List Nat) : Nat → List Nat → List Nat
  | 0, st => st
  | f + 1, st => shaRounds W f (shaRound W (64 - (f + 1)) st)

def zipAdd32 (a b : List Nat) : List Nat := List.zipWith (fun x y => (x + y) % 4294967296) a b

def sha256Compress (H block : List Nat) : List Nat :=
  let W := schedExtend 48 ((chunksOf 4 block.length block).map word4)
  zipAdd32 H (shaRounds W 64 H)

def sha256 (msg : List Nat) : List Nat :=
  let padded := sha256Pad msg
  (((chunksOf 64 padded.length padded).foldl sha256Compress shaH0).map (bytesBE 4)).flatten

/-- UTF-8 encoding of one character (`cipher.update(text, 'utf8', ...)`). -/
def utf8Encode (c : Char) : List Nat :=
  let n := c.toNat
  if n < 128 then [n]
  else if n < 2048 then [192 ||| (n >>> 6), 128 ||| (n &&& 63)]
  else if n < 65536 then
    [224 ||| (n >>> 12), 128 ||| ((n >>> 6) &&& 63), 128 ||| (n &&& 63)]
  else
    [240 ||| (n >>> 18), 128 ||| ((n >>> 12) &&& 63), 128 ||| ((n >>> 6) &&& 63),
     128 ||| (n &&& 63)]

def strBytes (s : String) : List Nat := (s.data.map utf8Encode).flatten

def toByte (n : Nat) : Byte := ⟨n % 256, Nat.mod_lt _ (by norm_num)⟩

/-- The configured secret: `process.env.ENCRYPTION_KEY` defaults to this
string in `src/config/encryption.js`. -/
def encKeyString : String := "shield_chat_super_secret_2026"

/-- `key = crypto.createHash('sha256').update(...).digest()`. -/
def encryptionKey : List Byte := (sha256 (strBytes encKeyString)).map toByte

/-! ## AES-256 key expansion and block cipher -/

def rconTable : List Byte := [1, 2, 4, 8, 16, 32, 64, 128, 27, 54]

def subWord (w : List Byte) : List Byte := w.map sbox

def rotWord (w : List Byte) : List Byte :=
  match w with
  | a :: rest => rest ++ [a]
  | [] => []

def keyExpandStep (ws : List (List Byte)) : List (List Byte) :=
  let i := ws.length
  let prev := ws.getD (i - 1) []
  let t :=
    if i % 8 == 0 then zipxor (subWord (rotWord prev)) [rconTable.getD (i / 8 - 1) 0, 0, 0, 0]
    else if i % 8 == 4 then subWord prev
    else prev
  ws ++ [zipxor (ws.getD (i - 8) []) t]

def keyWordsIter : Nat → List (List Byte) → List (List Byte)
  | 0, ws => ws
  | n + 1, ws => keyWordsIter n (keyExpandStep ws)

/-- The 15 round keys (16 bytes each) expanded from the repository's key. -/
def aesRoundKeys : List (List Byte) :=
  chunksOf 16 15 (keyWordsIter 52 (chunksOf 4 8 encryptionKey)).flatten

def encRound (k s : List Byte) : List Byte := ark k (mixColumns (shiftRows (subBytes s)))

def decRound (k s : List Byte) : List Byte := invMixColumns (ark k (invSubBytes (invShiftRows s)))

/-- AES-256 block encryption (14 rounds) with round keys `rks`. -/
def aesEncBlock (rks : List (List Byte)) (st : List Byte) : List Byte :=
  ark (rks.getD 14 []) (shiftRows (subBytes (
    encRound (rks.getD 13 []) (encRound (rks.getD 12 []) (encRound (rks.getD 11 []) (
    encRound (rks.getD 10 []) (encRound (rks.getD 9 []) (encRound (rks.getD 8 []) (
    encRound (rks.getD 7 []) (encRound (rks.getD 6 []) (encRound (rks.getD 5 []) (
    encRound (rks.getD 4 []) (encRound (rks.getD 3 []) (encRound (rks.getD 2 []) (
    encRound (rks.getD 1 []) (ark (rks.getD 0 []) st))))))))))))))))

/-- AES-256 block decryption. -/
def aesDecBlock (rks : List (List Byte)) (ct : List Byte) : List Byte :=
  ark (rks.getD 0 []) (invSubBytes (invShiftRows (
    decRound (rks.getD 1 []) (decRound (rks.getD 2 []) (decRound (rks.getD 3 []) (
    decRound (rks.getD 4 []) (decRound (rks.getD 5 []) (decRound (rks.getD 6 []) (
    decRound (rks.getD 7 []) (decRound (rks.getD 8 []) (decRound (rks.getD 9 []) (
    decRound (rks.getD 10 []) (decRound (rks.getD 11 []) (decRound (rks.getD 12 []) (
    decRound (rks.getD 13 []) (ark (rks.getD 14 []) ct))))))))))))))))

def cbcEncBlocks (prev : List Byte) : List (List Byte) → List (List Byte)
  | [] => []
  | b :: rest =>
    let c := aesEncBlock aesRoundKeys (zipxor b prev)
    c :: cbcEncBlocks c rest

def cbcDecBlocks (prev : List Byte) : List (List Byte) → List Byte
  | [] => []
  | c :: rest => zipxor (aesDecBlock aesRoundKeys c) prev ++ cbcDecBlocks c rest

/-- PKCS#7: node's `createCipheriv` pads with `p` copies of the byte `p`,
`p = 16 - len mod 16` (between 1 and 16). -/
def padPKCS7 (m : List Byte) : List Byte :=
  m ++ List.replicate (16 - m.length % 16) (toByte (16 - m.length % 16))

/-- PKCS#7 unpadding as checked by node's `decipher.final`: the last byte `p`
must be between 1 and 16 and the last `p` bytes must all equal `p`,
otherwise the decryption fails (`bad decrypt`). -/
def unpadPKCS7 (p : List Byte) : Option (List Byte) :=
  let n := (p.getLast?.getD 0).val
  if p.length = 0 ∨ n = 0 ∨ 16 < n ∨ p.length < n then none
  else if (p.drop (p.length - n)).all (fun b => b == p.getLast?.getD 0) then
    some (p.take (p.length - n))
  else none

structure EncryptedMessage where
  encrypted : List Byte
  iv : List Byte
deriving DecidableEq

/-- `encryptMessage` from `src/config/encryption.js`, with the random
`iv = crypto.randomBytes(16)` made an explicit argument and text/ciphertext
modelled at the byte level (utf8 and hex renderings elided). -/
def encryptMessage (text iv : List Byte) : Except String EncryptedMessage :=
  if text.length = 0 then .error "Invalid input: text cannot be empty"
  else if iv.length ≠ 16 then .error "Encryption failed: Invalid initialization vector"
  else
    .ok ⟨(cbcEncBlocks iv (chunksOf 16 (padPKCS7 text).length (padPKCS7 text))).flatten, iv⟩

/-- `decryptMessage` from `src/config/encryption.js`: validates the iv length
(32 hex characters = 16 bytes) and that the ciphertext is a nonempty sequence
of whole blocks, then CBC-decrypts and unpads; any padding failure surfaces
as a `Decryption failed` error. -/
def decryptMessage (encryptedText ivBytes : List Byte) : Except String (List Byte) :=
  if encryptedText.length = 0 then .error "Invalid input: encryptedText must be valid hex"
  else if ivBytes.length ≠ 16 then .error "Invalid IV length: must be 32 hex characters (16 bytes)"
  else if encryptedText.length % 16 ≠ 0 then .error "Decryption failed: wrong final block length"
  else
    match unpadPKCS7 (cbcDecBlocks ivBytes (chunksOf 16 encryptedText.length encryptedText)) with
    | some m => .ok m
    | none => .error "Decryption failed: bad decrypt"

/-! ### Concrete vectors for the tampering analysis -/

def helloMsg : List Byte := (strBytes "hello").map toByte

def ielloMsg : List Byte := (strBytes "iello").map toByte

def demoIV : List Byte := [0, 1, 2, 3, 4, 5, 6, 7, 8, 9, 10, 11, 12, 13, 14, 15].map toByte

/-- `demoIV` with its first byte flipped (xor 1). -/
def tamperedIV : List Byte := [1, 1, 2, 3, 4, 5, 6, 7, 8, 9, 10, 11, 12, 13, 14, 15].map toByte

/-- The ciphertext `encryptMessage` produces for "hello" under `demoIV`. -/
def helloCiphertext : List Byte :=
  [154, 210, 207, 224, 30, 39, 199, 151, 231, 155, 72, 159, 110, 180, 210, 135].map toByte

/-! ## JavaScript dynamic payload values (socket handlers receive untyped data) -/

inductive JVal where
  | vnum (n : Int)
  | vstr (s : String)
  | vbool (b : Bool)
  | vnull
  | vundef
deriving DecidableEq

/-- JavaScript truthiness for the values `JVal` models (numbers are modelled
as integers, so `NaN` does not arise). -/
def JVal.truthy : JVal → Bool
  | .vnum n => n != 0
  | .vstr s => s != ""
  | .vbool b => b
  | .vnull => false
  | .vundef => false

/-- How `${v}` renders inside a template string. -/
def jsTemplateToString : JVal → String
  | .vnum n => toString n
  | .vstr s => s
  | .vbool b => if b then "true" else "false"
  | .vnull => "null"
  | .vundef => "undefined"

/-- `String.prototype.trim` on the character sets the handlers see
(ASCII whitespace; the full JS set also contains rarer unicode spaces). -/
def isJsWhitespace (c : Char) : Bool :=
  c == ' ' || c == '\t' || c == '\n' || c == '\r' || c == '\x0b' || c == '\x0c'

def jsTrim (s : String) : String :=
  ⟨((s.data.dropWhile isJsWhitespace).reverse.dropWhile isJsWhitespace).reverse⟩

/-- JS string length, modelled as character count. -/
def jsLength (s : String) : Nat := s.data.length

/-! ## The validators of the socket module (`src/unnamed/part_004`) -/

def MAX_MESSAGE_LENGTH : Nat := 10000

def VALID_MESSAGE_TYPES : List String := ["text", "image", "file", "audio", "video"]

/-- `validators.validateReceiverId`: rejects falsy/non-number values
(`Invalid receiver ID`), then non-positive ids (`Receiver ID must be
positive`). -/
def validateReceiverId : JVal → Except String Int
  | .vnum n =>
    if n = 0 then .error "Invalid receiver ID"
    else if n ≤ 0 then .error "Receiver ID must be positive"
    else .ok n
  | _ => .error "Invalid receiver ID"

/-- `validators.validateContent`: requires a truthy string, trims it, rejects
empty or overlong trimmed content, and returns the trimmed content. -/
def validateContent : JVal → Except String String
  | .vstr s =>
    if s = "" then .error "Message content is required"
    else
      let trimmed := jsTrim s
      if jsLength trimmed = 0 then .error "Message content cannot be empty"
      else if MAX_MESSAGE_LENGTH < jsLength trimmed then
        .error "Message too long. Max 10000 characters allowed"
      else .ok trimmed
  | _ => .error "Message content is required"

/-- `validators.validateMessageType`: falsy defaults to `text`; otherwise the
value must be in the closed set. -/
def validateMessageType (v : JVal) : Except String String :=
  if v.truthy = false then .ok "text"
  else match v with
    | .vstr t =>
      if t ∈ VALID_MESSAGE_TYPES then .ok t
      else .error "Invalid message type. Allowed: text, image, file, audio, video"
    | _ => .error "Invalid message type. Allowed: text, image, file, audio, video"

structure MsgPayload where
  receiver_id : JVal
  content : JVal
  message_type : JVal
deriving DecidableEq

structure ValidatedMsg where
  receiver_id : Int
  content : String
  message_type : String
deriving DecidableEq

/-- `validators.validateMessagePayload`: `none` models a non-object `data`;
errors are collected in validator order (receiver, content, type). -/
def validateMessagePayload : Option MsgPayload → Except (List String) ValidatedMsg
  | none => .error ["Invalid data format"]
  | some d =>
    let r := validateReceiverId d.receiver_id
    let c := validateContent d.content
    let t := validateMessageType d.message_type
    match r, c, t with
    | .ok rid, .ok ct, .ok tv => .ok ⟨rid, ct, tv⟩
    | _, _, _ =>
      .error ((match r with | .error e => [e] | _ => [])
        ++ (match c with | .error e => [e] | _ => [])
        ++ (match t with | .error e => [e] | _ => []))

/-! ## `safeCallback`: the invoke-at-most-once guard -/

/-- State-machine run of the wrapper returned by `safeCallback(f)` over a
sequence of invocations (each with its argument vector): returns the argument
vectors actually forwarded to `f`, and the number of
`Callback already called` warnings logged. The boolean is the captured
`called` flag. -/
def safeCallbackRun {α : Type} : Bool → List α → List α × Nat
  | _, [] => ([], 0)
  | true, _ :: rest =>
    let r := safeCallbackRun true rest
    (r.1, r.2 + 1)
  | false, a :: rest =>
    let r := safeCallbackRun true rest
    (a :: r.1, r.2)

/-! ## Rooms, emits, and the connection-scoped handlers -/

def userRoom (uid : Int) : String := "user:" ++ toString uid

def companyRoom (cid : Int) : String := "company:" ++ toString cid

structure SenderInfo where
  id : Int
  username : String
  first_name : String
  last_name : String
deriving DecidableEq

structure MessageData where
  id : Int
  sender_id : Int
  receiver_id : Int
  content : String
  iv : List Byte
  message_type : String
  created_at : Nat
  sender : SenderInfo
deriving DecidableEq

inductive EmitPayload where
  | newMessage (m : MessageData)
  | readAck (message_id reader_id : Int)
  | friendRequestReceived (sender_id : Int) (sender_name : String)
  | friendRequestAccepted (receiver_id : Int) (receiver_name : String)
deriving DecidableEq

structure EmitEv where
  room : String
  event : String
  payload : EmitPayload
deriving DecidableEq

structure UserRec where
  id : Int
  company_id : Int
  is_active : Bool
  username : String
  first_name : String
  last_name : String
deriving DecidableEq

/-- `User.findOne({ where: { id, company_id, is_active: true } })` — the
tenant-scoped receiver lookup of `message:send`. -/
def findActiveUserInCompany (users : List UserRec) (rid cid : Int) : Option UserRec :=
  users.find? (fun u => u.id == rid && u.company_id == cid && u.is_active)

/-- `User.findByPk(id)` — a lookup with no tenant scoping (friend handlers). -/
def findUserById (users : List UserRec) (uid : Int) : Option UserRec :=
  users.find? (fun u => u.id == uid)

structure CreateArgs where
  company_id : Int
  sender_id : Int
  receiver_id : Int
  encrypted_message : List Byte
  iv : List Byte
  message_type : String
deriving DecidableEq

inductive SendAck where
  | ok (message : MessageData)
  | err (error : String) (details : Option (List String))
deriving DecidableEq

structure SendEffects where
  creates : List CreateArgs
  emits : List EmitEv
  audits : Nat
  encryptions : Nat
  ack : SendAck
deriving DecidableEq

/-- The `message:send` handler as a pure function from its inputs to its
effects: the `Message.create` calls it issues, the events it emits, how many
audit rows and encryptions it performs, and the acknowledgment it passes to
the (safe) callback. `iv` is the random iv drawn inside `encryptMessage`,
`newId`/`createdAt` are the store-assigned id and timestamp of the created
row. The store itself is assumed available (its failure branch is the
source's `Failed to save message` reply, not reached in this model). -/
def messageSendHandler (users : List UserRec) (companyId : Int) (sender : SenderInfo)
    (data : Option MsgPayload) (iv : List Byte) (newId : Int) (createdAt : Nat) : SendEffects :=
  match validateMessagePayload data with
  | .error errs => ⟨[], [], 0, 0, .err "Invalid message data" (some errs)⟩
  | .ok v =>
    match findActiveUserInCompany users v.receiver_id companyId with
    | none => ⟨[], [], 0, 0, .err "Recipient not found or inactive" none⟩
    | some _ =>
      if v.receiver_id == sender.id then
        ⟨[], [], 0, 0, .err "Cannot send messages to yourself" none⟩
      else
        match encryptMessage ((strBytes v.content).map toByte) iv with
        | .error _ => ⟨[], [], 0, 1, .err "Failed to process message" none⟩
        | .ok encData =>
          let messageData : MessageData :=
            ⟨newId, sender.id, v.receiver_id, v.content, encData.iv, v.message_type,
             createdAt, sender⟩
          ⟨[⟨companyId, sender.id, v.receiver_id, encData.encrypted, encData.iv,
             v.message_type⟩],
           [⟨userRoom v.receiver_id, "new_message", .newMessage messageData⟩],
           1, 1, .ok messageData⟩

/-! ## Room membership and push delivery -/

abbrev Memberships := List (String × String)

def joinRoom (M : Memberships) (sid room : String) : Memberships := (sid, room) :: M

/-- On connection (after authentication) a socket joins its tenant room and
its own user room. -/
def connectSocket (M : Memberships) (sid : String) (companyId userId : Int) : Memberships :=
  joinRoom (joinRoom M sid (companyRoom companyId)) sid (userRoom userId)

/-- A socket receives a pushed event iff it is in the event's target room. -/
def receivesEmit (M : Memberships) (sid : String) (e : EmitEv) : Bool :=
  M.contains (sid, e.room)

inductive SimpleAck where
  | ok
  | err (error : String)
deriving DecidableEq

/-- The `register` handler: any number or string is accepted and the socket
joins `user:<targetUserId>` with no tenant check. -/
def registerHandler (M : Memberships) (sid : String) (targetUserId : JVal) :
    Memberships × SimpleAck :=
  match targetUserId with
  | .vnum n => (joinRoom M sid ("user:" ++ toString n), .ok)
  | .vstr s => (joinRoom M sid ("user:" ++ s), .ok)
  | _ => (M, .err "Invalid user ID")

/-! ## The `connectedUsers` presence registry

The source comments it as `Map<userId, Set<socketId>>`, but the code
actually keeps `Map<companyId, Map<userId, socketId>>`: a single socket id
per user, overwritten on every new connection, and `delete`d wholesale on
disconnect. Maps are modelled as association lists in insertion order. -/

abbrev Registry := List (Int × List (Int × String))

def lookupTenant (reg : Registry) (cid : Int) : Option (List (Int × String)) :=
  (reg.find? (fun e => e.1 == cid)).map (·.2)

def setAssoc (l : List (Int × String)) (k : Int) (v : String) : List (Int × String) :=
  if l.any (fun e => e.1 == k) then l.map (fun e => if e.1 == k then (k, v) else e)
  else l ++ [(k, v)]

def eraseAssoc (l : List (Int × String)) (k : Int) : List (Int × String) :=
  l.filter (fun e => e.1 != k)

/-- Connection tracking (lines 220–223): create the tenant map on first use,
then `set(userId, socket.id)` — note it stores one socket id per user. -/
def registerConn (reg : Registry) (cid uid : Int) (sid : String) : Registry :=
  if (lookupTenant reg cid).isSome then
    reg.map (fun e => if e.1 == cid then (e.1, setAssoc e.2 uid sid) else e)
  else reg ++ [(cid, [(uid, sid)])]

/-- The disconnect handler (lines 627–632): `delete(userId)` unconditionally
(regardless of which socket disconnected), then drop the tenant entry if its
map became empty. -/
def disconnectConn (reg : Registry) (cid uid : Int) : Registry :=
  if (lookupTenant reg cid).isSome then
    if (eraseAssoc ((lookupTenant reg cid).getD []) uid).isEmpty then
      reg.filter (fun e => e.1 != cid)
    else
      reg.map (fun e =>
        if e.1 == cid then (e.1, eraseAssoc ((lookupTenant reg cid).getD []) uid) else e)
  else reg

def getOnlineUsers (reg : Registry) (cid : Int) : List Int :=
  ((lookupTenant reg cid).getD []).map (·.1)

def getOnlineCount (reg : Registry) (cid : Int) : Nat :=
  ((lookupTenant reg cid).getD []).length

/-- `connectedUsers.get(companyId)?.has(userId)` (the `is_online` probe). -/
def isOnline (reg : Registry) (cid uid : Int) : Bool :=
  ((lookupTenant reg cid).getD []).any (fun e => e.1 == uid)

/-- Well-formedness a JS `Map`-of-`Map`s always has: unique keys at both
levels, and (maintained by the disconnect handler) no empty inner map. -/
def RegistryWF (reg : Registry) : Prop :=
  (reg.map (·.1)).Nodup ∧ ∀ e ∈ reg, (e.2.map (·.1)).Nodup ∧ e.2 ≠ []

/-! ## The `message:read` handler -/

structure MsgRec where
  id : Int
  sender_id : Int
  receiver_id : Int
  is_read : Bool
deriving DecidableEq

structure ReadAckResult where
  success : Bool
  updated : Option Bool
  error : Option String
deriving DecidableEq

structure ReadEffects where
  messages : List MsgRec
  emits : List EmitEv
  ack : ReadAckResult
deriving DecidableEq

/-- The `message:read` handler: `Message.update({is_read: true, read_at: ...},
{ where: { id: message_id, receiver_id: userId } })` (the `read_at`
timestamp refresh is elided), then a `message:read:ack` push to
`user:<data.sender_id>` only when a row was affected. -/
def messageReadHandler (msgs : List MsgRec) (userId : Int) (message_id sender_id : JVal) :
    ReadEffects :=
  match message_id with
  | .vnum mid =>
    if mid = 0 then ⟨msgs, [], ⟨false, none, some "Invalid message ID"⟩⟩
    else
      let updatedCount := msgs.countP (fun mrec => mrec.id == mid && mrec.receiver_id == userId)
      let msgs2 := msgs.map (fun mrec =>
        if mrec.id == mid && mrec.receiver_id == userId then
          { mrec with is_read := true }
        else mrec)
      let emits := if 0 < updatedCount then
          [⟨"user:" ++ jsTemplateToString sender_id, "message:read:ack", .readAck mid userId⟩]
        else []
      ⟨msgs2, emits, ⟨true, some (decide (0 < updatedCount)), none⟩⟩
  | _ => ⟨msgs, [], ⟨false, none, some "Invalid message ID"⟩⟩

/-! ## The friend-notification handlers -/

structure FriendEffects where
  emits : List EmitEv
  ack : SimpleAck
deriving DecidableEq

/-- `user.first_name ? first_name + " " + last_name : username`. -/
def senderDisplayName (u : SenderInfo) : String :=
  if u.first_name != "" then u.first_name ++ " " ++ u.last_name else u.username

/-- The `friend:request:sent` handler: validates the receiver id, looks the
receiver up with `findByPk` (no tenant scoping), and if found pushes a
`friend:request:received` event to that user's room; a missing receiver is a
silent no-op with a success reply. -/
def friendRequestSentHandler (users : List UserRec) (userId : Int) (sender : SenderInfo)
    (receiver_id : JVal) : FriendEffects :=
  match receiver_id with
  | .vnum rid =>
    if rid = 0 then ⟨[], .err "Invalid receiver ID"⟩
    else
      match findUserById users rid with
      | some _ =>
        ⟨[⟨userRoom rid, "friend:request:received",
           .friendRequestReceived userId (senderDisplayName sender)⟩], .ok⟩
      | none => ⟨[], .ok⟩
  | _ => ⟨[], .err "Invalid receiver ID"⟩

/-- The `friend:request:accepted` handler: validates the sender id and pushes
unconditionally to that user's room (no lookup at all). -/
def friendRequestAcceptedHandler (userId : Int) (user : SenderInfo) (sender_id : JVal) :
    FriendEffects :=
  match sender_id with
  | .vnum sid =>
    if sid = 0 then ⟨[], .err "Invalid sender ID"⟩
    else
      ⟨[⟨userRoom sid, "friend:request:accepted:notification",
         .friendRequestAccepted userId (senderDisplayName user)⟩], .ok⟩
  | _ => ⟨[], .err "Invalid sender ID"⟩

/-! ## The client's pending-message replay layer (`src/unnamed/part_008`) -/

structure PendingData where
  content : String
  receiverId : Int
  tempId : Int
deriving DecidableEq

abbrev PendingMap := List (Int × PendingData)

structure SendEmit where
  receiver_id : Int
  content : String
deriving DecidableEq

def lookupPending (pending : PendingMap) (tid : Int) : Option PendingData :=
  (pending.find? (fun e => e.1 == tid)).map (·.2)

/-- `sendMessageAsync`'s acknowledgment callback: it resolves or rejects the
promise but never touches `pendingMessages`. -/
def sendMessageAsyncAck (pending : PendingMap) (_response : SendAck) : PendingMap := pending

/-- `resendPendingMessages`: iterates the pending entries, emitting a
`message:send` for each (content trimmed, as in `sendMessageAsync`); the
map itself is not mutated. -/
def resendPendingMessages (pending : PendingMap) : PendingMap × List SendEmit :=
  (pending, pending.map (fun e => ⟨e.2.receiverId, jsTrim e.2.content⟩))

/-- Pending-map state after a replay pass in which the server answered each
replayed send with the given acknowledgments. -/
def resendWithAcks (pending : PendingMap) (responses : List SendAck) : PendingMap :=
  responses.foldl sendMessageAsyncAck (resendPendingMessages pending).1

def erasePending (pending : PendingMap) (tempId : Int) : PendingMap :=
  pending.filter (fun e => e.1 != tempId)

/-- The interactive `sendMessage` acknowledgment callback: on success it
deletes the pending entry; on failure it leaves it for replay. -/
def sendMessageAck (pending : PendingMap) (tempId : Int) (success : Bool) : PendingMap :=
  if success then erasePending pending tempId else pending

instance {ε α : Type} [DecidableEq ε] [DecidableEq α] : DecidableEq (Except ε α) := fun x y =>
  match x, y with
  | .error a, .error b => if h : a = b then .isTrue (by rw [h]) else .isFalse (by simp [h])
  | .ok a, .ok b => if h : a = b then .isTrue (by rw [h]) else .isFalse (by simp [h])
  | .error _, .ok _ => .isFalse (by simp)
  | .ok _, .error _ => .isFalse (by simp)

/-! ## The claims -/

def userB : UserRec := ⟨7, 1, true, "bob", "Bob", "B"⟩

def senderA : SenderInfo := ⟨3, "alice", "Alice", "A"⟩

def longContent : String := ⟨List.replicate 10001 'A'⟩

/-! ## Theorems -/

theorem bxor_val (x y : Byte) : (bxor x y).val = x.val ^^^ y.val := rfl

theorem bxor_comm (x y : Byte) : bxor x y = bxor y x := by
  apply Fin.ext; simp [bxor_val, Nat.xor_comm]

theorem bxor_assoc (x y z : Byte) : bxor (bxor x y) z = bxor x (bxor y z) := by
  apply Fin.ext; simp [bxor_val, Nat.xor_assoc]

theorem bxor_left_comm (x y z : Byte) : bxor x (bxor y z) = bxor y (bxor x z) := by
  apply Fin.ext; simp [bxor_val, ← Nat.xor_assoc]
  rw [Nat.xor_comm x.val y.val]

theorem bxor_self (x : Byte) : bxor x x = 0 := by
  apply Fin.ext; simp [bxor_val]

theorem bxor_zero (x : Byte) : bxor x 0 = x := by
  apply Fin.ext; simp [bxor_val]

theorem zero_bxor (x : Byte) : bxor 0 x = x := by
  apply Fin.ext; simp [bxor_val]

theorem bxor_cancel_left (k x : Byte) : bxor k (bxor k x) = x := by
  rw [← bxor_assoc, bxor_self, zero_bxor]

theorem bxor_cancel_right (x k : Byte) : bxor (bxor x k) k = x := by
  rw [bxor_assoc, bxor_self, bxor_zero]

theorem two_mul_xor (x y : Nat) : 2 * (x ^^^ y) = (2 * x) ^^^ (2 * y) := by
  have h : ∀ z : Nat, 2 * z = z <<< 1 := by
    intro z; rw [Nat.shiftLeft_eq, pow_one, Nat.mul_comm]
  rw [h, h, h]
  apply Nat.eq_of_testBit_eq
  intro i
  simp only [Nat.testBit_shiftLeft, Nat.testBit_xor]
  by_cases hi : 1 ≤ i <;> simp [hi]

theorem xor_mod_256 (a b : Nat) : (a ^^^ b) % 256 = a % 256 ^^^ b % 256 := by
  have h : ∀ c : Nat, c % 256 = c % 2 ^ 8 := by intro c; norm_num
  rw [h, h, h]
  apply Nat.eq_of_testBit_eq
  intro i
  simp only [Nat.testBit_mod_two_pow, Nat.testBit_xor]
  by_cases hi : i < 8 <;> simp [hi]

theorem xor_xor_cancel (a b c : Nat) : (a ^^^ c) ^^^ (b ^^^ c) = a ^^^ b := by
  rw [Nat.xor_assoc, Nat.xor_comm c (b ^^^ c), Nat.xor_assoc, Nat.xor_self, Nat.xor_zero]

theorem testBit7_of_lt_256 (x : Nat) (h : x < 256) : x.testBit 7 = decide (128 ≤ x) := by
  rw [Nat.testBit_to_div_mod]
  simp only [show (2:Nat) ^ 7 = 128 by norm_num, decide_eq_decide]
  omega

theorem le_128_xor_iff (x y : Nat) (hx : x < 256) (hy : y < 256) :
    (128 ≤ (x ^^^ y)) ↔ ¬ (128 ≤ x ↔ 128 ≤ y) := by
  have hxy : x ^^^ y < 256 := @Nat.xor_lt_two_pow x y 8 hx hy
  have h7 := testBit7_of_lt_256 (x ^^^ y) hxy
  rw [Nat.testBit_xor, testBit7_of_lt_256 x hx, testBit7_of_lt_256 y hy] at h7
  by_cases h1 : 128 ≤ x <;> by_cases h2 : 128 ≤ y <;>
    simp [h1, h2] at h7 <;> simp [h1, h2, h7]

theorem xtime_linear (x y : Byte) : xtime (bxor x y) = bxor (xtime x) (xtime y) := by
  apply Fin.ext
  have hx := x.isLt
  have hy := y.isLt
  have hcase := le_128_xor_iff x.val y.val hx hy
  show (if 128 ≤ (x.val ^^^ y.val) then (2 * (x.val ^^^ y.val)) ^^^ 283
        else 2 * (x.val ^^^ y.val)) % 256 = _
  rcases Nat.lt_or_ge x.val 128 with h1 | h1 <;> rcases Nat.lt_or_ge y.val 128 with h2 | h2
  · -- neither high bit set
    have hc : ¬ 128 ≤ (x.val ^^^ y.val) := by rw [hcase]; omega
    simp only [bxor_val, xtime, if_neg hc, if_neg (by omega : ¬ 128 ≤ x.val),
      if_neg (by omega : ¬ 128 ≤ y.val)]
    rw [two_mul_xor, xor_mod_256]
  · -- y high
    have hc : 128 ≤ (x.val ^^^ y.val) := by rw [hcase]; omega
    simp only [bxor_val, xtime, if_pos hc, if_neg (by omega : ¬ 128 ≤ x.val), if_pos h2]
    rw [two_mul_xor, Nat.xor_assoc, xor_mod_256]
  · -- x high
    have hc : 128 ≤ (x.val ^^^ y.val) := by rw [hcase]; omega
    simp only [bxor_val, xtime, if_pos hc, if_pos h1, if_neg (by omega : ¬ 128 ≤ y.val)]
    rw [two_mul_xor, ← xor_mod_256]
    congr 1
    rw [Nat.xor_assoc, Nat.xor_comm (2 * y.val) 283, ← Nat.xor_assoc]
  · -- both high
    have hc : ¬ 128 ≤ (x.val ^^^ y.val) := by rw [hcase]; omega
    simp only [bxor_val, xtime, if_neg hc, if_pos h1, if_pos h2]
    rw [two_mul_xor, ← xor_mod_256]
    congr 1
    rw [xor_xor_cancel]

theorem g2_linear (x y : Byte) : g2 (bxor x y) = bxor (g2 x) (g2 y) := xtime_linear x y

theorem g3_linear (x y : Byte) : g3 (bxor x y) = bxor (g3 x) (g3 y) := by
  simp only [g3, xtime_linear]
  simp [bxor_assoc, bxor_comm, bxor_left_comm]

theorem g9_linear (x y : Byte) : g9 (bxor x y) = bxor (g9 x) (g9 y) := by
  simp only [g9, xtime_linear]
  simp [bxor_assoc, bxor_comm, bxor_left_comm]

theorem g11_linear (x y : Byte) : g11 (bxor x y) = bxor (g11 x) (g11 y) := by
  simp only [g11, xtime_linear]
  simp [bxor_assoc, bxor_comm, bxor_left_comm]

theorem g13_linear (x y : Byte) : g13 (bxor x y) = bxor (g13 x) (g13 y) := by
  simp only [g13, xtime_linear]
  simp [bxor_assoc, bxor_comm, bxor_left_comm]

theorem g14_linear (x y : Byte) : g14 (bxor x y) = bxor (g14 x) (g14 y) := by
  simp only [g14, xtime_linear]
  simp [bxor_assoc, bxor_comm, bxor_left_comm]

set_option maxRecDepth 10000 in
theorem p1_eq : ∀ x : Byte, p1 x = x := by decide

set_option maxRecDepth 10000 in
theorem p2_eq : ∀ x : Byte, p2 x = 0 := by decide

set_option maxRecDepth 10000 in
theorem p3_eq : ∀ x : Byte, p3 x = 0 := by decide

set_option maxRecDepth 10000 in
theorem p4_eq : ∀ x : Byte, p4 x = 0 := by decide

theorem imc0_mc (a b c d : Byte) :
    imc0 (mc0 a b c d) (mc1 a b c d) (mc2 a b c d) (mc3 a b c d) = a := by
  have step : imc0 (mc0 a b c d) (mc1 a b c d) (mc2 a b c d) (mc3 a b c d)
      = bxor (p1 a) (bxor (p2 b) (bxor (p3 c) (p4 d))) := by
    simp only [imc0, mc0, mc1, mc2, mc3, p1, p2, p3, p4,
      g14_linear, g11_linear, g13_linear, g9_linear]
    simp [bxor_assoc, bxor_comm, bxor_left_comm]
  rw [step, p1_eq, p2_eq, p3_eq, p4_eq]; simp [zero_bxor, bxor_zero]

theorem imc1_mc (a b c d : Byte) :
    imc1 (mc0 a b c d) (mc1 a b c d) (mc2 a b c d) (mc3 a b c d) = b := by
  have step : imc1 (mc0 a b c d) (mc1 a b c d) (mc2 a b c d) (mc3 a b c d)
      = bxor (p4 a) (bxor (p1 b) (bxor (p2 c) (p3 d))) := by
    simp only [imc1, mc0, mc1, mc2, mc3, p1, p2, p3, p4,
      g14_linear, g11_linear, g13_linear, g9_linear]
    simp [bxor_assoc, bxor_comm, bxor_left_comm]
  rw [step, p1_eq, p2_eq, p3_eq, p4_eq]; simp [zero_bxor, bxor_zero]

theorem imc2_mc (a b c d : Byte) :
    imc2 (mc0 a b c d) (mc1 a b c d) (mc2 a b c d) (mc3 a b c d) = c := by
  have step : imc2 (mc0 a b c d) (mc1 a b c d) (mc2 a b c d) (mc3 a b c d)
      = bxor (p3 a) (bxor (p4 b) (bxor (p1 c) (p2 d))) := by
    simp only [imc2, mc0, mc1, mc2, mc3, p1, p2, p3, p4,
      g14_linear, g11_linear, g13_linear, g9_linear]
    simp [bxor_assoc, bxor_comm, bxor_left_comm]
  rw [step, p1_eq, p2_eq, p3_eq, p4_eq]; simp [zero_bxor, bxor_zero]

theorem imc3_mc (a b c d : Byte) :
    imc3 (mc0 a b c d) (mc1 a b c d) (mc2 a b c d) (mc3 a b c d) = d := by
  have step : imc3 (mc0 a b c d) (mc1 a b c d) (mc2 a b c d) (mc3 a b c d)
      = bxor (p2 a) (bxor (p3 b) (bxor (p4 c) (p1 d))) := by
    simp only [imc3, mc0, mc1, mc2, mc3, p1, p2, p3, p4,
      g14_linear, g11_linear, g13_linear, g9_linear]
    simp [bxor_assoc, bxor_comm, bxor_left_comm]
  rw [step, p1_eq, p2_eq, p3_eq, p4_eq]; simp [zero_bxor, bxor_zero]

/-- Spell out a 16-element list from a length hypothesis. -/
theorem exists_sixteen {α : Type} (l : List α) (h : l.length = 16) :
    ∃ a0 a1 a2 a3 a4 a5 a6 a7 a8 a9 a10 a11 a12 a13 a14 a15 : α,
      l = [a0, a1, a2, a3, a4, a5, a6, a7, a8, a9, a10, a11, a12, a13, a14, a15] := by
  match l, h with
  | [a0, a1, a2, a3, a4, a5, a6, a7, a8, a9, a10, a11, a12, a13, a14, a15], _ =>
    exact ⟨a0, a1, a2, a3, a4, a5, a6, a7, a8, a9, a10, a11, a12, a13, a14, a15, rfl⟩

set_option maxRecDepth 10000 in
theorem invSbox_sbox : ∀ b : Byte, invSbox (sbox b) = b := by decide

theorem invSubBytes_subBytes (st : List Byte) : invSubBytes (subBytes st) = st := by
  induction st with
  | nil => rfl
  | cons x xs ih =>
    simp only [subBytes, invSubBytes, List.map_cons] at ih ⊢
    rw [invSbox_sbox, ih]

theorem invShiftRows_shiftRows (st : List Byte) (h : st.length = 16) :
    invShiftRows (shiftRows st) = st := by
  obtain ⟨a0, a1, a2, a3, a4, a5, a6, a7, a8, a9, a10, a11, a12, a13, a14, a15, rfl⟩ :=
    exists_sixteen st h
  rfl

theorem invMixColumns_mixColumns (st : List Byte) (h : st.length = 16) :
    invMixColumns (mixColumns st) = st := by
  obtain ⟨a0, a1, a2, a3, a4, a5, a6, a7, a8, a9, a10, a11, a12, a13, a14, a15, rfl⟩ :=
    exists_sixteen st h
  simp only [mixColumns, invMixColumns]
  simp [imc0_mc, imc1_mc, imc2_mc, imc3_mc]

theorem ark_ark (k st : List Byte) (h : k.length = st.length) : ark k (ark k st) = st := by
  induction st generalizing k with
  | nil => simp [ark]
  | cons x xs ih =>
    cases k with
    | nil => simp at h
    | cons b bs =>
      simp only [ark, List.zipWith]
      rw [bxor_cancel_right]
      have := ih bs (by simpa using h)
      simpa [ark] using this

theorem zipxor_cancel_right (a b : List Byte) (h : a.length = b.length) :
    zipxor (zipxor a b) b = a := by
  induction a generalizing b with
  | nil => simp [zipxor]
  | cons x xs ih =>
    cases b with
    | nil => simp at h
    | cons y ys =>
      simp only [zipxor, List.zipWith]
      rw [bxor_cancel_right]
      have := ih ys (by simpa using h)
      simpa [zipxor] using this

theorem length_shiftRows (s : List Byte) : (shiftRows s).length = 16 := rfl

theorem length_mixColumns (s : List Byte) : (mixColumns s).length = 16 := rfl

theorem length_subBytes (s : List Byte) : (subBytes s).length = s.length := List.length_map _ _

theorem length_ark (k st : List Byte) : (ark k st).length = min st.length k.length :=
  List.length_zipWith _ _ _

theorem length_encRound (k s : List Byte) (hk : k.length = 16) : (encRound k s).length = 16 := by
  show (ark k (mixColumns (shiftRows (subBytes s)))).length = 16
  rw [length_ark, length_mixColumns, hk]
  rfl

theorem ark_ark_sr (k : List Byte) (hk : k.length = 16) (s : List Byte) :
    ark k (ark k (shiftRows s)) = shiftRows s :=
  ark_ark k _ (hk.trans rfl)

theorem decRound_round (k s : List Byte) (hk : k.length = 16) :
    decRound k (shiftRows (subBytes (encRound k s))) = shiftRows (subBytes s) := by
  show invMixColumns (ark k (invSubBytes (invShiftRows (shiftRows (subBytes (encRound k s))))))
    = shiftRows (subBytes s)
  rw [invShiftRows_shiftRows (subBytes (encRound k s))
      ((length_subBytes _).trans (length_encRound k s hk)),
    invSubBytes_subBytes]
  show invMixColumns (ark k (ark k (mixColumns (shiftRows (subBytes s))))) = _
  rw [ark_ark k (mixColumns (shiftRows (subBytes s))) (hk.trans rfl),
    invMixColumns_mixColumns _ (length_shiftRows _)]

theorem aesDecBlock_aesEncBlock (rks : List (List Byte)) (st : List Byte)
    (hk : ∀ i, i < 15 → (rks.getD i []).length = 16) (hst : st.length = 16) :
    aesDecBlock rks (aesEncBlock rks st) = st := by
  have stp : ∀ i, i < 15 → ∀ s : List Byte,
      decRound (rks.getD i []) (shiftRows (subBytes (encRound (rks.getD i []) s)))
        = shiftRows (subBytes s) :=
    fun i hi s => decRound_round _ s (hk i hi)
  simp only [aesDecBlock, aesEncBlock]
  rw [ark_ark_sr _ (hk 14 (by omega))]
  rw [stp 13 (by omega), stp 12 (by omega), stp 11 (by omega), stp 10 (by omega),
    stp 9 (by omega), stp 8 (by omega), stp 7 (by omega), stp 6 (by omega),
    stp 5 (by omega), stp 4 (by omega), stp 3 (by omega), stp 2 (by omega),
    stp 1 (by omega)]
  have hsub : (subBytes (ark (rks.getD 0 []) st)).length = 16 := by
    rw [length_subBytes, length_ark, hst, hk 0 (by omega)]
    rfl
  rw [invShiftRows_shiftRows (subBytes (ark (rks.getD 0 []) st)) hsub,
    invSubBytes_subBytes,
    ark_ark (rks.getD 0 []) st ((hk 0 (by omega)).trans hst.symm)]

/-! ## CBC mode, PKCS#7 padding, and the `encryptMessage` / `decryptMessage`
functions of `src/config/encryption.js` -/

set_option maxRecDepth 10000 in
theorem length_aesRoundKeys : ∀ i, i < 15 → ((aesRoundKeys.getD i []).length = 16) := by decide

theorem length_aesEncBlock (s : List Byte) : (aesEncBlock aesRoundKeys s).length = 16 := by
  simp only [aesEncBlock]
  rw [length_ark, length_shiftRows, length_aesRoundKeys 14 (by omega)]
  rfl

/-! ### Round-trip lemmas -/

theorem chunksOf_succ_of_ne {α : Type} (n f : Nat) (l : List α) (h : l ≠ []) :
    chunksOf n (f + 1) l = l.take n :: chunksOf n f (l.drop n) := by
  cases l with
  | nil => exact absurd rfl h
  | cons x xs => rfl

theorem chunksOf_flatten {α : Type} (fuel : Nat) (l : List α) (h : l.length ≤ 16 * fuel) :
    (chunksOf 16 fuel l).flatten = l := by
  induction fuel generalizing l with
  | zero =>
    have : l = [] := List.length_eq_zero.mp (by omega)
    simp [this, chunksOf]
  | succ f ih =>
    cases l with
    | nil => simp [chunksOf]
    | cons x xs =>
      simp only [chunksOf, List.flatten_cons]
      rw [ih ((x :: xs).drop 16)
        (by simp only [List.length_drop, List.length_cons] at h ⊢; omega)]
      exact List.take_append_drop 16 (x :: xs)

theorem chunksOf_mem_length {α : Type} (fuel : Nat) (l : List α) (h : l.length % 16 = 0) :
    ∀ b ∈ chunksOf 16 fuel l, b.length = 16 := by
  induction fuel generalizing l with
  | zero => simp [chunksOf]
  | succ f ih =>
    cases l with
    | nil => simp [chunksOf]
    | cons x xs =>
      have hlen : 16 ≤ (x :: xs).length := by
        simp only [List.length_cons] at h ⊢
        omega
      intro b hb
      simp only [chunksOf, List.mem_cons] at hb
      rcases hb with hb | hb
      · subst hb
        simp only [List.length_take]
        omega
      · refine ih _ ?_ b hb
        simp only [List.length_drop]
        omega

theorem chunksOf_of_blocks {α : Type} (bs : List (List α)) (fuel : Nat)
    (hlen : ∀ b ∈ bs, b.length = 16) (hfuel : bs.length ≤ fuel) :
    chunksOf 16 fuel bs.flatten = bs := by
  induction bs generalizing fuel with
  | nil =>
    cases fuel <;> simp [chunksOf]
  | cons b rest ih =>
    cases fuel with
    | zero => simp at hfuel
    | succ f =>
      have hb : b.length = 16 := hlen b (by simp)
      have hbne : b ≠ [] := by
        intro hcon; rw [hcon] at hb; simp at hb
      simp only [List.flatten_cons]
      rw [chunksOf_succ_of_ne 16 f (b ++ rest.flatten) (by simp [hbne])]
      rw [List.take_left' hb, List.drop_left' hb]
      rw [ih f (fun b hb => hlen b (by simp [hb])) (by simpa using hfuel)]

theorem cbcDec_cbcEnc (bs : List (List Byte)) (prev : List Byte)
    (hlen : ∀ b ∈ bs, b.length = 16) (hprev : prev.length = 16) :
    cbcDecBlocks prev (cbcEncBlocks prev bs) = bs.flatten := by
  induction bs generalizing prev with
  | nil => rfl
  | cons b rest ih =>
    have hb : b.length = 16 := hlen b (by simp)
    simp only [cbcEncBlocks, cbcDecBlocks, List.flatten_cons]
    rw [aesDecBlock_aesEncBlock aesRoundKeys (zipxor b prev) length_aesRoundKeys
        (by simp [zipxor, List.length_zipWith, hb, hprev]),
      zipxor_cancel_right b prev (hb.trans hprev.symm),
      ih _ (fun x hx => hlen x (by simp [hx])) (length_aesEncBlock _)]

theorem length_cbcEnc (bs : List (List Byte)) (prev : List Byte) :
    (cbcEncBlocks prev bs).length = bs.length := by
  induction bs generalizing prev with
  | nil => rfl
  | cons b rest ih => simp only [cbcEncBlocks, List.length_cons, ih]

theorem cbcEnc_mem_length (bs : List (List Byte)) (prev : List Byte) :
    ∀ c ∈ cbcEncBlocks prev bs, c.length = 16 := by
  induction bs generalizing prev with
  | nil => simp [cbcEncBlocks]
  | cons b rest ih =>
    intro c hc
    simp only [cbcEncBlocks, List.mem_cons] at hc
    rcases hc with hc | hc
    · rw [hc]; exact length_aesEncBlock _
    · exact ih _ c hc

theorem flatten_length_of_blocks {α : Type} (bs : List (List α))
    (h : ∀ b ∈ bs, b.length = 16) : bs.flatten.length = 16 * bs.length := by
  induction bs with
  | nil => rfl
  | cons b rest ih =>
    simp only [List.flatten_cons, List.length_append, List.length_cons,
      h b (by simp), ih (fun x hx => h x (by simp [hx]))]
    ring

theorem padPKCS7_length_mod (m : List Byte) : (padPKCS7 m).length % 16 = 0 := by
  simp only [padPKCS7, List.length_append, List.length_replicate]
  omega

theorem padPKCS7_ne_nil (m : List Byte) : padPKCS7 m ≠ [] := by
  simp only [padPKCS7]
  intro hcon
  have := congrArg List.length hcon
  simp only [List.length_append, List.length_replicate, List.length_nil] at this
  omega

theorem unpad_append_replicate (m : List Byte) (pl : Nat)
    (h1 : 1 ≤ pl) (h16 : pl ≤ 16) :
    unpadPKCS7 (m ++ List.replicate pl (toByte pl)) = some m := by
  have hval : (toByte pl).val = pl := by
    simp only [toByte]
    omega
  have hlast : (m ++ List.replicate pl (toByte pl)).getLast? = some (toByte pl) := by
    rw [List.getLast?_append, List.getLast?_replicate, if_neg (by omega)]
    rfl
  have hplen : (m ++ List.replicate pl (toByte pl)).length = m.length + pl := by
    simp
  have hsub : m.length + pl - pl = m.length := by omega
  simp only [unpadPKCS7, hlast, Option.getD_some, hval, hplen]
  rw [if_neg (by omega), hsub, List.drop_left, List.take_left]
  rw [if_pos ?hall]
  case hall =>
    simp only [List.all_eq_true, List.mem_replicate]
    intro b hb
    rw [hb.2]
    exact beq_self_eq_true _

theorem unpadPKCS7_padPKCS7 (m : List Byte) : unpadPKCS7 (padPKCS7 m) = some m := by
  rw [padPKCS7]
  exact unpad_append_replicate m _ (by omega) (by omega)

theorem decryptMessage_encryptMessage (m iv : List Byte) (enc : EncryptedMessage)
    (h : encryptMessage m iv = .ok enc) :
    decryptMessage enc.encrypted enc.iv = .ok m := by
  by_cases hm : m.length = 0
  · rw [encryptMessage, if_pos hm] at h
    exact absurd h (by simp)
  by_cases hiv : iv.length = 16
  case neg =>
    rw [encryptMessage, if_neg hm, if_pos hiv] at h
    exact absurd h (by simp)
  rw [encryptMessage, if_neg hm, if_neg (by omega)] at h
  injection h with h
  subst h
  show decryptMessage
    (cbcEncBlocks iv (chunksOf 16 (padPKCS7 m).length (padPKCS7 m))).flatten iv = .ok m
  have hpadmod := padPKCS7_length_mod m
  have hblocks_len : ∀ b ∈ chunksOf 16 (padPKCS7 m).length (padPKCS7 m), b.length = 16 :=
    chunksOf_mem_length _ _ hpadmod
  have hflat : (chunksOf 16 (padPKCS7 m).length (padPKCS7 m)).flatten = padPKCS7 m :=
    chunksOf_flatten _ _ (by omega)
  have hcbc_len : ∀ c ∈ cbcEncBlocks iv (chunksOf 16 (padPKCS7 m).length (padPKCS7 m)),
      c.length = 16 := cbcEnc_mem_length _ _
  have hctlen :
      (cbcEncBlocks iv (chunksOf 16 (padPKCS7 m).length (padPKCS7 m))).flatten.length
        = 16 * (chunksOf 16 (padPKCS7 m).length (padPKCS7 m)).length := by
    rw [flatten_length_of_blocks _ hcbc_len, length_cbcEnc]
  have hblocks_ne : chunksOf 16 (padPKCS7 m).length (padPKCS7 m) ≠ [] := by
    intro hcon
    rw [hcon] at hflat
    exact padPKCS7_ne_nil m hflat.symm
  have hbpos : 1 ≤ (chunksOf 16 (padPKCS7 m).length (padPKCS7 m)).length := by
    rcases hx : chunksOf 16 (padPKCS7 m).length (padPKCS7 m) with _ | ⟨b, rest⟩
    · exact absurd hx hblocks_ne
    · simp
  rw [decryptMessage, if_neg (by omega), if_neg (by omega), if_neg (by omega)]
  rw [chunksOf_of_blocks _ _ hcbc_len (by rw [length_cbcEnc]; omega)]
  rw [cbcDec_cbcEnc _ _ hblocks_len hiv, hflat, unpadPKCS7_padPKCS7]

set_option maxRecDepth 1000000 in
/-- C4 counterexample: `helloCiphertext` is exactly what `encryptMessage`
produces for "hello" under `demoIV`; flipping a single byte of the iv (byte
0, `demoIV` to `tamperedIV`) makes `decryptMessage` *succeed* and return the
wrong plaintext "iello" — refuting "tampering any byte of the ciphertext or
of the iv causes decryptMessage to fail, never to silently return a wrong
plaintext". -/
theorem claim_C4_cex : encryptMessage helloMsg demoIV = .ok ⟨helloCiphertext, demoIV⟩
    ∧ decryptMessage helloCiphertext tamperedIV = .ok ielloMsg
    ∧ ielloMsg ≠ helloMsg := by
  refine ⟨rfl, rfl, by decide⟩

/-! ## Evaluation lemmas for the validators and handlers -/

theorem validateReceiverId_pos (rid : Int) (h : 0 < rid) :
    validateReceiverId (.vnum rid) = .ok rid := by
  rw [validateReceiverId, if_neg (by omega), if_neg (by omega)]

theorem validateContent_ok (content : String)
    (h1 : 1 ≤ jsLength (jsTrim content)) (h2 : jsLength (jsTrim content) ≤ MAX_MESSAGE_LENGTH) :
    validateContent (.vstr content) = .ok (jsTrim content) := by
  have hne : ¬ content = "" := by
    intro hc
    subst hc
    revert h1
    decide
  rw [validateContent, if_neg hne, if_neg (by omega), if_neg (by omega)]

theorem mem_types_ne_empty (mtype : String) (h : mtype ∈ VALID_MESSAGE_TYPES) : mtype ≠ "" := by
  simp only [VALID_MESSAGE_TYPES, List.mem_cons, List.not_mem_nil, or_false] at h
  rcases h with rfl | rfl | rfl | rfl | rfl <;> decide

theorem validateMessageType_mem (mtype : String) (h : mtype ∈ VALID_MESSAGE_TYPES) :
    validateMessageType (.vstr mtype) = .ok mtype := by
  have hne := mem_types_ne_empty mtype h
  rw [validateMessageType, if_neg (by simp [JVal.truthy, hne])]
  simp [h]

theorem validateMessagePayload_valid (rid : Int) (content mtype : String)
    (hrid : 0 < rid)
    (hclen1 : 1 ≤ jsLength (jsTrim content)) (hclen2 : jsLength (jsTrim content) ≤ MAX_MESSAGE_LENGTH)
    (htype : mtype ∈ VALID_MESSAGE_TYPES) :
    validateMessagePayload (some ⟨.vnum rid, .vstr content, .vstr mtype⟩)
      = .ok ⟨rid, jsTrim content, mtype⟩ := by
  rw [validateMessagePayload]
  rw [validateReceiverId_pos rid hrid, validateContent_ok content hclen1 hclen2,
    validateMessageType_mem mtype htype]

theorem strBytes_length_ne_zero (s : String) (h : 1 ≤ jsLength s) :
    ((strBytes s).map toByte).length ≠ 0 := by
  rcases hd : s.data with _ | ⟨c, rest⟩
  · rw [jsLength, hd] at h
    simp at h
  · rw [List.length_map, strBytes, hd]
    simp only [List.map_cons, List.flatten_cons, List.length_append]
    have : utf8Encode c ≠ [] := by
      rw [utf8Encode]
      split
      · simp
      · split
        · simp
        · split <;> simp
    have := List.length_pos.mpr this
    omega

theorem messageSendHandler_valid (users : List UserRec) (companyId : Int) (sender : SenderInfo)
    (rid : Int) (content mtype : String) (iv : List Byte) (newId : Int) (createdAt : Nat)
    (r : UserRec)
    (hrid : 0 < rid)
    (hfound : findActiveUserInCompany users rid companyId = some r)
    (hneq : rid ≠ sender.id)
    (hclen1 : 1 ≤ jsLength (jsTrim content))
    (hclen2 : jsLength (jsTrim content) ≤ MAX_MESSAGE_LENGTH)
    (htype : mtype ∈ VALID_MESSAGE_TYPES)
    (hiv : iv.length = 16) :
    ∃ ct : List Byte,
      messageSendHandler users companyId sender (some ⟨.vnum rid, .vstr content, .vstr mtype⟩)
          iv newId createdAt
        = ⟨[⟨companyId, sender.id, rid, ct, iv, mtype⟩],
           [⟨userRoom rid, "new_message",
             .newMessage ⟨newId, sender.id, rid, jsTrim content, iv, mtype, createdAt, sender⟩⟩],
           1, 1,
           .ok ⟨newId, sender.id, rid, jsTrim content, iv, mtype, createdAt, sender⟩⟩ := by
  have henc : encryptMessage ((strBytes (jsTrim content)).map toByte) iv
      = .ok ⟨(cbcEncBlocks iv (chunksOf 16
          (padPKCS7 ((strBytes (jsTrim content)).map toByte)).length
          (padPKCS7 ((strBytes (jsTrim content)).map toByte)))).flatten, iv⟩ := by
    rw [encryptMessage, if_neg (strBytes_length_ne_zero _ hclen1), if_neg (by omega)]
  refine ⟨(cbcEncBlocks iv (chunksOf 16
      (padPKCS7 ((strBytes (jsTrim content)).map toByte)).length
      (padPKCS7 ((strBytes (jsTrim content)).map toByte)))).flatten, ?_⟩
  rw [messageSendHandler,
    validateMessagePayload_valid rid content mtype hrid hclen1 hclen2 htype]
  simp only [hfound, henc]
  simp [hneq]

/-! ## Registry lemmas -/

theorem lookupTenant_update (reg : Registry) (cid : Int)
    (f : List (Int × String) → List (Int × String)) :
    lookupTenant (reg.map (fun e => if e.1 == cid then (e.1, f e.2) else e)) cid
      = (lookupTenant reg cid).map f := by
  induction reg with
  | nil => rfl
  | cons e rest ih =>
    simp only [lookupTenant] at ih ⊢
    cases hcase : (e.1 == cid)
    · have hif : (if e.1 == cid then (e.1, f e.2) else e) = e := if_neg (by simp [hcase])
      rw [List.map_cons, hif,
        List.find?_cons_of_neg _ (by simpa using hcase),
        List.find?_cons_of_neg _ (by simpa using hcase)]
      exact ih
    · have hif : (if e.1 == cid then (e.1, f e.2) else e) = (e.1, f e.2) := if_pos hcase
      rw [List.map_cons, hif,
        List.find?_cons_of_pos _ (by simpa using hcase),
        List.find?_cons_of_pos _ (by simpa using hcase)]
      rfl

theorem lookupTenant_filter_out (reg : Registry) (cid : Int) :
    lookupTenant (reg.filter (fun e => e.1 != cid)) cid = none := by
  have hfind : List.find? (fun e => e.1 == cid) (reg.filter (fun e => e.1 != cid)) = none := by
    rw [List.find?_eq_none]
    intro e he
    have := (List.mem_filter.mp he).2
    simpa using this
  simp [lookupTenant, hfind]

theorem lookupTenant_append_single (reg : Registry) (cid : Int) (inner : List (Int × String))
    (h : lookupTenant reg cid = none) :
    lookupTenant (reg ++ [(cid, inner)]) cid = some inner := by
  have hfind : List.find? (fun e => e.1 == cid) reg = none := by
    rcases hf : List.find? (fun e => e.1 == cid) reg with _ | e
    · exact hf
    · rw [lookupTenant, hf] at h
      simp at h
  rw [lookupTenant, List.find?_append, hfind]
  simp [List.find?]

theorem eraseAssoc_of_map_replace (l : List (Int × String)) (k : Int) (v : String) :
    eraseAssoc (l.map (fun e => if e.1 == k then (k, v) else e)) k = eraseAssoc l k := by
  induction l with
  | nil => rfl
  | cons e rest ih =>
    by_cases h : e.1 == k
    · simp only [eraseAssoc, List.map_cons, if_pos h, List.filter]
      have h1 : ((k, v).1 != k) = false := by simp
      have h2 : (e.1 != k) = false := by simpa using h
      rw [h1, h2]
      exact ih
    · simp only [eraseAssoc, List.map_cons, if_neg h, List.filter]
      have h2 : (e.1 != k) = true := by simpa using h
      rw [h2]
      simp only [eraseAssoc] at ih
      rw [ih]

theorem eraseAssoc_append_single (l : List (Int × String)) (k : Int) (v : String) :
    eraseAssoc (l ++ [(k, v)]) k = eraseAssoc l k := by
  simp only [eraseAssoc, List.filter_append]
  have : List.filter (fun e => e.1 != k) [(k, v)] = [] := by simp [List.filter]
  rw [this, List.append_nil]

theorem eraseAssoc_setAssoc (l : List (Int × String)) (k : Int) (v : String) :
    eraseAssoc (setAssoc l k v) k = eraseAssoc l k := by
  rw [setAssoc]
  split
  · exact eraseAssoc_of_map_replace l k v
  · exact eraseAssoc_append_single l k v

theorem eraseAssoc_not_mem (l : List (Int × String)) (k : Int) :
    (eraseAssoc l k).any (fun e => e.1 == k) = false := by
  simp only [eraseAssoc, List.any_eq_false]
  intro e he
  have := (List.mem_filter.mp he).2
  simpa using this

theorem eraseAssoc_of_not_online (l : List (Int × String)) (k : Int)
    (h : l.any (fun e => e.1 == k) = false) : eraseAssoc l k = l := by
  rw [eraseAssoc, List.filter_eq_self]
  intro e he
  simp only [List.any_eq_false] at h
  simpa using h e he

/-- The registry entry for `cid` after a register/unregister pass: the
user's entry is removed unconditionally, and the tenant entry disappears
when it was the only one. -/
theorem lookupTenant_after_cycle (reg : Registry) (cid uid : Int) (sid : String) :
    lookupTenant (disconnectConn (registerConn reg cid uid sid) cid uid) cid
      = match lookupTenant reg cid with
        | none => none
        | some inner =>
          if (eraseAssoc inner uid).isEmpty then none else some (eraseAssoc inner uid) := by
  rcases hreg : lookupTenant reg cid with _ | inner
  · -- no tenant entry: register appends a fresh singleton, disconnect removes it
    rw [registerConn, hreg]
    simp only [Option.isSome_none, Bool.false_eq_true, if_false]
    have h2 : lookupTenant (reg ++ [(cid, [(uid, sid)])]) cid = some [(uid, sid)] :=
      lookupTenant_append_single reg cid _ hreg
    have herase : eraseAssoc [(uid, sid)] uid = [] := by
      simp [eraseAssoc, List.filter]
    rw [disconnectConn, h2]
    simp only [Option.isSome_some, if_true, Option.getD_some, herase, List.isEmpty_nil]
    rw [lookupTenant_filter_out]
  · -- tenant entry present: register overwrites the single slot, disconnect erases it
    rw [registerConn, hreg]
    simp only [Option.isSome_some, if_true]
    have h2 : lookupTenant
        (reg.map (fun e => if e.1 == cid then (e.1, setAssoc e.2 uid sid) else e)) cid
        = some (setAssoc inner uid sid) := by
      rw [lookupTenant_update reg cid (fun l => setAssoc l uid sid), hreg]
      rfl
    rw [disconnectConn, h2]
    simp only [Option.isSome_some, if_true, Option.getD_some, eraseAssoc_setAssoc]
    cases hemp : (eraseAssoc inner uid).isEmpty
    · simp only [Bool.false_eq_true, if_false]
      rw [lookupTenant_update
          (reg.map (fun e => if e.1 == cid then (e.1, setAssoc e.2 uid sid) else e)) cid
          (fun _ => eraseAssoc inner uid), h2]
      rfl
    · simp only [if_true]
      rw [lookupTenant_filter_out]

/-! ## Remaining small helpers -/

theorem receivesEmit_of_mem (M : Memberships) (sid : String) (e : EmitEv)
    (h : (sid, e.room) ∈ M) : receivesEmit M sid e = true := by
  simpa [receivesEmit] using h

theorem receivesEmit_of_not_mem (M : Memberships) (sid : String) (e : EmitEv)
    (h : (sid, e.room) ∉ M) : receivesEmit M sid e = false := by
  simpa [receivesEmit] using h

theorem validateMessagePayload_error_ne_nil (data : Option MsgPayload) (errs : List String)
    (h : validateMessagePayload data = .error errs) : errs ≠ [] := by
  intro hcon
  subst hcon
  match data with
  | none =>
    rw [validateMessagePayload] at h
    simp at h
  | some d =>
    rw [validateMessagePayload] at h
    rcases hr : validateReceiverId d.receiver_id with er | vr <;>
      rcases hc : validateContent d.content with ec | vc <;>
        rcases ht : validateMessageType d.message_type with et | vt <;>
          rw [hr, hc, ht] at h <;> simp at h

theorem foldl_asyncAck (responses : List SendAck) (pending : PendingMap) :
    responses.foldl sendMessageAsyncAck pending = pending := by
  induction responses generalizing pending with
  | nil => rfl
  | cons r rs ih => exact ih pending

theorem resendWithAcks_eq (pending : PendingMap) (responses : List SendAck) :
    resendWithAcks pending responses = pending := foldl_asyncAck responses pending

theorem lookupPending_erase (pending : PendingMap) (tid : Int) :
    lookupPending (erasePending pending tid) tid = none := by
  have hfind : List.find? (fun e => e.1 == tid) (erasePending pending tid) = none := by
    rw [List.find?_eq_none]
    intro e he
    have := (List.mem_filter.mp he).2
    simpa using this
  simp [lookupPending, hfind]

/-- C1: for every client `message:send` whose receiver id identifies an active
user in the sender's tenant, with receiver ≠ sender, trimmed content of 1 to
10000 characters, and a declared type in the closed set, the handler invokes
the message store's create exactly once, acknowledges the sender with
success and a message envelope carrying the server-assigned id and the
plaintext (trimmed, not encrypted) content, and pushes that same envelope as
a `new_message` event to the receiver's user room — so every connection
registered there (the receiver's own connection in particular) receives it. -/
theorem claim_C1 (users : List UserRec) (companyId : Int) (sender : SenderInfo)
    (rid : Int) (content mtype : String) (iv : List Byte) (newId : Int) (createdAt : Nat)
    (r : UserRec) (M : Memberships) (sidB : String)
    (hrid : 0 < rid)
    (hfound : findActiveUserInCompany users rid companyId = some r)
    (hneq : rid ≠ sender.id)
    (hclen1 : 1 ≤ jsLength (jsTrim content))
    (hclen2 : jsLength (jsTrim content) ≤ MAX_MESSAGE_LENGTH)
    (htype : mtype ∈ VALID_MESSAGE_TYPES)
    (hiv : iv.length = 16)
    (hmem : (sidB, userRoom rid) ∈ M) :
    ∃ ct : List Byte,
      messageSendHandler users companyId sender (some ⟨.vnum rid, .vstr content, .vstr mtype⟩)
          iv newId createdAt
        = ⟨[⟨companyId, sender.id, rid, ct, iv, mtype⟩],
           [⟨userRoom rid, "new_message",
             .newMessage ⟨newId, sender.id, rid, jsTrim content, iv, mtype, createdAt, sender⟩⟩],
           1, 1,
           .ok ⟨newId, sender.id, rid, jsTrim content, iv, mtype, createdAt, sender⟩⟩
      ∧ receivesEmit M sidB
          ⟨userRoom rid, "new_message",
           .newMessage ⟨newId, sender.id, rid, jsTrim content, iv, mtype, createdAt, sender⟩⟩
        = true := by
  obtain ⟨ct, hct⟩ := messageSendHandler_valid users companyId sender rid content mtype iv
    newId createdAt r hrid hfound hneq hclen1 hclen2 htype hiv
  exact ⟨ct, hct, receivesEmit_of_mem M sidB _ hmem⟩

theorem claim_C1_witness :
    ∃ ct : List Byte,
      messageSendHandler [userB] 1 senderA (some ⟨.vnum 7, .vstr "hello", .vstr "text"⟩)
          demoIV 99 5
        = ⟨[⟨1, senderA.id, 7, ct, demoIV, "text"⟩],
           [⟨userRoom 7, "new_message",
             .newMessage ⟨99, senderA.id, 7, jsTrim "hello", demoIV, "text", 5, senderA⟩⟩],
           1, 1,
           .ok ⟨99, senderA.id, 7, jsTrim "hello", demoIV, "text", 5, senderA⟩⟩
      ∧ receivesEmit (connectSocket [] "sockB" 1 7) "sockB"
          ⟨userRoom 7, "new_message",
           .newMessage ⟨99, senderA.id, 7, jsTrim "hello", demoIV, "text", 5, senderA⟩⟩
        = true :=
  claim_C1 [userB] 1 senderA 7 "hello" "text" demoIV 99 5 userB
    (connectSocket [] "sockB" 1 7) "sockB"
    (by decide) (by decide) (by decide) (by decide) (by decide) (by decide) (by decide)
    (by decide)

/-- C2: a `message:send` whose validated receiver id does not resolve to an
active user in the sender's tenant (in particular an id that belongs to an
active user of a different tenant) is acknowledged with
`success:false, error:"Recipient not found or inactive"` and the handler
performs no store create, emits nothing, and writes no audit row. -/
theorem claim_C2 (users : List UserRec) (companyId : Int) (sender : SenderInfo)
    (data : Option MsgPayload) (iv : List Byte) (newId : Int) (createdAt : Nat)
    (v : ValidatedMsg)
    (hval : validateMessagePayload data = .ok v)
    (hnone : findActiveUserInCompany users v.receiver_id companyId = none) :
    messageSendHandler users companyId sender data iv newId createdAt
      = ⟨[], [], 0, 0, .err "Recipient not found or inactive" none⟩ := by
  rw [messageSendHandler, hval]
  simp [hnone]

theorem claim_C2_witness :
    messageSendHandler [⟨42, 2, true, "eve", "Eve", "X"⟩] 1 senderA
        (some ⟨.vnum 42, .vstr "hola", .vstr "text"⟩) demoIV 99 5
      = ⟨[], [], 0, 0, .err "Recipient not found or inactive" none⟩ :=
  claim_C2 [⟨42, 2, true, "eve", "Eve", "X"⟩] 1 senderA
    (some ⟨.vnum 42, .vstr "hola", .vstr "text"⟩) demoIV 99 5 ⟨42, "hola", "text"⟩
    (by decide) (by decide)

/-- C3: an authenticated connection of one tenant can `register` with the
user id of a user of a *different* tenant — the handler joins it to
`user:<id>` with no tenant check and replies success — and because
`new_message` pushes are addressed to rooms keyed by user id alone, every
subsequent valid send to that user is then delivered, plaintext content
included, to the foreign connection. -/
theorem claim_C3 (M : Memberships) (spySid : String) (spyCompany spyUser : Int)
    (users : List UserRec) (companyId : Int) (sender : SenderInfo) (rid : Int)
    (content mtype : String) (iv : List Byte) (newId : Int) (createdAt : Nat) (r : UserRec)
    (hdiff : spyCompany ≠ companyId)
    (hrid : 0 < rid)
    (hfound : findActiveUserInCompany users rid companyId = some r)
    (hneq : rid ≠ sender.id)
    (hclen1 : 1 ≤ jsLength (jsTrim content))
    (hclen2 : jsLength (jsTrim content) ≤ MAX_MESSAGE_LENGTH)
    (htype : mtype ∈ VALID_MESSAGE_TYPES)
    (hiv : iv.length = 16) :
    (registerHandler (connectSocket M spySid spyCompany spyUser) spySid (.vnum rid)).2 = .ok
    ∧ ∀ e ∈ (messageSendHandler users companyId sender
          (some ⟨.vnum rid, .vstr content, .vstr mtype⟩) iv newId createdAt).emits,
        receivesEmit
            (registerHandler (connectSocket M spySid spyCompany spyUser) spySid (.vnum rid)).1
            spySid e = true
          ∧ e.payload
            = .newMessage ⟨newId, sender.id, rid, jsTrim content, iv, mtype, createdAt, sender⟩ := by
  obtain ⟨ct, hct⟩ := messageSendHandler_valid users companyId sender rid content mtype iv
    newId createdAt r hrid hfound hneq hclen1 hclen2 htype hiv
  refine ⟨rfl, ?_⟩
  rw [hct]
  intro e he
  simp only [List.mem_singleton] at he
  subst he
  refine ⟨receivesEmit_of_mem _ _ _ ?_, rfl⟩
  simp [registerHandler, joinRoom, userRoom]

theorem claim_C3_witness :
    (registerHandler (connectSocket [] "spy" 2 66) "spy" (.vnum 7)).2 = .ok
    ∧ ∀ e ∈ (messageSendHandler [userB] 1 senderA
          (some ⟨.vnum 7, .vstr "hello", .vstr "text"⟩) demoIV 99 5).emits,
        receivesEmit (registerHandler (connectSocket [] "spy" 2 66) "spy" (.vnum 7)).1
            "spy" e = true
          ∧ e.payload
            = .newMessage ⟨99, senderA.id, 7, jsTrim "hello", demoIV, "text", 5, senderA⟩ :=
  claim_C3 [] "spy" 2 66 [userB] 1 senderA 7 "hello" "text" demoIV 99 5 userB
    (by decide) (by decide) (by decide) (by decide) (by decide) (by decide) (by decide)
    (by decide)

/-- C4 (amended): for every nonempty byte string `m` (the utf8 rendering of a
message of up to 10000 characters) and 16-byte iv, `decryptMessage` applied
to the output of `encryptMessage m` returns `m`. The tampering half of the
original claim is false (see the counterexample): CBC with PKCS#7 padding
detects some tampering through the padding check, but flipping a byte of the
iv whose position lies inside the message region silently yields a wrong
plaintext. -/
theorem claim_C4 (m iv : List Byte) (enc : EncryptedMessage)
    (hm : m ≠ []) (hlen : m.length ≤ 40000) (hiv : iv.length = 16)
    (henc : encryptMessage m iv = .ok enc) :
    decryptMessage enc.encrypted enc.iv = .ok m :=
  decryptMessage_encryptMessage m iv enc henc

set_option maxRecDepth 1000000 in
theorem claim_C4_witness :
    decryptMessage (EncryptedMessage.mk helloCiphertext demoIV).encrypted
        (EncryptedMessage.mk helloCiphertext demoIV).iv
      = .ok helloMsg :=
  claim_C4 helloMsg demoIV ⟨helloCiphertext, demoIV⟩ (by decide) (by decide) (by decide) rfl

/-- C5 (amended): the registry keeps a single socket id per (tenant, user) —
`connectedUsers` is `Map<companyId, Map<userId, socketId>>`, not a map of
connection sets — so registering a connection for (tenant, user) and then
disconnecting that user leaves `isOnline` false; `onlineCount` returns to
its prior value only when the user was not already online beforehand (a
prior live connection is overwritten and then deleted wholesale, see the
counterexample); the user entry is removed unconditionally, and the tenant
entry is removed exactly when no users remain (never left behind empty). -/
theorem claim_C5 (reg : Registry) (cid uid : Int) (sid : String) (hwf : RegistryWF reg) :
    isOnline (disconnectConn (registerConn reg cid uid sid) cid uid) cid uid = false
    ∧ (isOnline reg cid uid = false →
        getOnlineCount (disconnectConn (registerConn reg cid uid sid) cid uid) cid
          = getOnlineCount reg cid)
    ∧ lookupTenant (disconnectConn (registerConn reg cid uid sid) cid uid) cid ≠ some [] := by
  rcases hreg : lookupTenant reg cid with _ | inner
  · have hc : lookupTenant (disconnectConn (registerConn reg cid uid sid) cid uid) cid
        = none := by
      rw [lookupTenant_after_cycle, hreg]
    refine ⟨?_, ?_, ?_⟩
    · rw [isOnline, hc]
      rfl
    · intro _
      rw [getOnlineCount, hc, getOnlineCount, hreg]
    · rw [hc]
      simp
  · have hc : lookupTenant (disconnectConn (registerConn reg cid uid sid) cid uid) cid
        = if (eraseAssoc inner uid).isEmpty then none else some (eraseAssoc inner uid) := by
      rw [lookupTenant_after_cycle, hreg]
    have hinner_ne : inner ≠ [] := by
      rcases hfind : List.find? (fun e => e.1 == cid) reg with _ | entry
      · rw [lookupTenant, hfind] at hreg
        simp at hreg
      · have hment : entry ∈ reg := List.mem_of_find?_eq_some hfind
        have hval : entry.2 = inner := by
          rw [lookupTenant, hfind] at hreg
          simpa using hreg
        have := (hwf.2 entry hment).2
        rw [hval] at this
        exact this
    refine ⟨?_, ?_, ?_⟩
    · cases hemp : (eraseAssoc inner uid).isEmpty
      · rw [isOnline, hc, if_neg (by simp [hemp]), Option.getD_some]
        exact eraseAssoc_not_mem inner uid
      · rw [isOnline, hc, if_pos hemp]
        rfl
    · intro hoff
      rw [isOnline, hreg, Option.getD_some] at hoff
      have herase := eraseAssoc_of_not_online inner uid hoff
      rw [getOnlineCount, hc, herase, if_neg (by simp [hinner_ne]),
        Option.getD_some, getOnlineCount, hreg, Option.getD_some]
    · cases hemp : (eraseAssoc inner uid).isEmpty
      · rw [hc, if_neg (by simp [hemp])]
        intro hcon
        rw [Option.some_inj] at hcon
        rw [hcon] at hemp
        simp at hemp
      · rw [hc, if_pos hemp]
        simp

theorem claim_C5_witness :
    isOnline (disconnectConn (registerConn ([] : Registry) 1 5 "a") 1 5) 1 5 = false
    ∧ (isOnline ([] : Registry) 1 5 = false →
        getOnlineCount (disconnectConn (registerConn ([] : Registry) 1 5 "a") 1 5) 1
          = getOnlineCount ([] : Registry) 1)
    ∧ lookupTenant (disconnectConn (registerConn ([] : Registry) 1 5 "a") 1 5) 1 ≠ some [] :=
  claim_C5 ([] : Registry) 1 5 "a" (by constructor <;> simp)

/-- C5 counterexample: tenant 1's user 5 already has a live connection "a";
a second connection "b" registers (overwriting the stored socket id) and
then disconnects. `onlineCount` drops from 1 to 0 instead of staying at its
prior value, and the (tenant, user) entry is removed even though connection
"a" never disconnected — refuting both the "onlineCount at its prior value
including when the same user already had another live connection" part and
the "removes the entry only when its connection set becomes empty" part. -/
theorem claim_C5_cex :
    isOnline ([(1, [(5, "a")])] : Registry) 1 5 = true
    ∧ getOnlineCount ([(1, [(5, "a")])] : Registry) 1 = 1
    ∧ getOnlineCount (disconnectConn (registerConn ([(1, [(5, "a")])] : Registry) 1 5 "b") 1 5) 1
        = 0
    ∧ isOnline (disconnectConn (registerConn ([(1, [(5, "a")])] : Registry) 1 5 "b") 1 5) 1 5
        = false := by
  decide

/-- C6: the wrapper returned by `safeCallback(f)` forwards the first
invocation's arguments to `f` and suppresses every later invocation with a
logged warning: over any invocation sequence `first :: rest`, `f` is called
exactly once (with `first`) and exactly `rest.length` warnings are logged —
no call of the wrapper crashes. -/
theorem claim_C6 {α : Type} (first : α) (rest : List α) :
    safeCallbackRun false (first :: rest) = ([first], rest.length) := by
  have htrue : ∀ l : List α, safeCallbackRun true l = ([], l.length) := by
    intro l
    induction l with
    | nil => rfl
    | cons a as ih => simp [safeCallbackRun, ih]
  simp [safeCallbackRun, htrue]

/-- C7: every `message:send` that fails payload validation is acknowledged
once with `success:false`, `error:"Invalid message data"` and the
machine-readable per-field reason list, and the handler performs no side
effect at all: no store create, no emit, no audit row, no encryption. The
reason list is never empty. The witness instantiates the spec scenario:
content of 10001 'A' characters yields exactly
`details = ["Message too long. Max 10000 characters allowed"]`. -/
theorem claim_C7 (users : List UserRec) (companyId : Int) (sender : SenderInfo)
    (data : Option MsgPayload) (iv : List Byte) (newId : Int) (createdAt : Nat)
    (errs : List String)
    (hval : validateMessagePayload data = .error errs) :
    messageSendHandler users companyId sender data iv newId createdAt
      = ⟨[], [], 0, 0, .err "Invalid message data" (some errs)⟩
    ∧ errs ≠ [] := by
  constructor
  · rw [messageSendHandler, hval]
  · exact validateMessagePayload_error_ne_nil data errs hval

theorem longContent_ne_empty : longContent ≠ "" := by
  intro h
  have := congrArg jsLength h
  simp only [jsLength, longContent, List.length_replicate] at this
  simp at this

theorem jsTrim_longContent : jsTrim longContent = longContent := by
  rw [jsTrim, longContent]
  show (⟨((((List.replicate 10001 'A').dropWhile
    isJsWhitespace).reverse.dropWhile isJsWhitespace).reverse : List Char)⟩ : String) = _
  rw [show (10001 : Nat) = 10000 + 1 from rfl, List.replicate_succ,
    List.dropWhile_cons_of_neg (by decide), ← List.replicate_succ, List.reverse_replicate,
    List.replicate_succ, List.dropWhile_cons_of_neg (by decide), ← List.replicate_succ,
    List.reverse_replicate]

theorem validateContent_longContent :
    validateContent (.vstr longContent)
      = .error "Message too long. Max 10000 characters allowed" := by
  have hlen : jsLength longContent = 10001 := by
    simp only [jsLength, longContent, List.length_replicate]
  rw [validateContent, if_neg longContent_ne_empty,
    if_neg (by rw [jsTrim_longContent, hlen]; decide),
    if_pos (by rw [jsTrim_longContent, hlen]; decide)]

theorem validateMessagePayload_longContent :
    validateMessagePayload (some ⟨.vnum 7, .vstr longContent, .vundef⟩)
      = .error ["Message too long. Max 10000 characters allowed"] := by
  rw [validateMessagePayload, validateReceiverId_pos 7 (by omega), validateContent_longContent,
    show validateMessageType .vundef = .ok "text" from rfl]
  rfl

theorem claim_C7_witness :
    messageSendHandler [userB] 1 senderA
        (some ⟨.vnum 7, .vstr longContent, .vundef⟩) demoIV 99 5
      = ⟨[], [], 0, 0,
         .err "Invalid message data" (some ["Message too long. Max 10000 characters allowed"])⟩
    ∧ ["Message too long. Max 10000 characters allowed"] ≠ ([] : List String) :=
  claim_C7 [userB] 1 senderA (some ⟨.vnum 7, .vstr longContent, .vundef⟩) demoIV 99 5
    ["Message too long. Max 10000 characters allowed"] validateMessagePayload_longContent

/-- C8: for every `message:read` request (valid numeric message id), the
persisted update is scoped to (message id, the requesting user as receiver):
rows not addressed to the requester are untouched. When zero rows match the
scope — message absent or addressed to someone else — nothing is pushed and
the reply is `success:true, updated:false` (not an error); when the
requester's matching row exists and the request names the message's sender,
a `message:read:ack` with the message id and the reader is pushed to that
sender's room. -/
theorem claim_C8 (msgs : List MsgRec) (userId mid sid : Int) (mrec : MsgRec)
    (hmid : mid ≠ 0) :
    (∀ m ∈ msgs, m.receiver_id ≠ userId →
        m ∈ (messageReadHandler msgs userId (.vnum mid) (.vnum sid)).messages)
    ∧ (msgs.countP (fun m => m.id == mid && m.receiver_id == userId) = 0 →
        (messageReadHandler msgs userId (.vnum mid) (.vnum sid)).emits = []
          ∧ (messageReadHandler msgs userId (.vnum mid) (.vnum sid)).ack
            = ⟨true, some false, none⟩)
    ∧ (mrec ∈ msgs → mrec.id = mid → mrec.receiver_id = userId → mrec.sender_id = sid →
        (messageReadHandler msgs userId (.vnum mid) (.vnum sid)).emits
            = [⟨userRoom sid, "message:read:ack", .readAck mid userId⟩]
          ∧ (messageReadHandler msgs userId (.vnum mid) (.vnum sid)).ack
            = ⟨true, some true, none⟩) := by
  have heff : messageReadHandler msgs userId (.vnum mid) (.vnum sid)
      = ⟨msgs.map (fun mrec =>
            if mrec.id == mid && mrec.receiver_id == userId then
              { mrec with is_read := true }
            else mrec),
         if 0 < msgs.countP (fun m => m.id == mid && m.receiver_id == userId) then
           [⟨"user:" ++ jsTemplateToString (.vnum sid), "message:read:ack", .readAck mid userId⟩]
         else [],
         ⟨true, some (decide (0 < msgs.countP (fun m => m.id == mid && m.receiver_id == userId))),
          none⟩⟩ := by
    rw [messageReadHandler, if_neg hmid]
  refine ⟨?_, ?_, ?_⟩
  · intro m hm hne
    rw [heff]
    exact List.mem_map.mpr ⟨m, hm, by simp [hne]⟩
  · intro hzero
    rw [heff]
    refine ⟨?_, ?_⟩
    · simp [hzero]
    · simp [hzero]
  · intro hmem hid hrecv hsend
    have hpos : 0 < msgs.countP (fun m => m.id == mid && m.receiver_id == userId) :=
      List.countP_pos_iff.mpr ⟨mrec, hmem, by simp [hid, hrecv]⟩
    rw [heff]
    refine ⟨?_, ?_⟩
    · simp only [if_pos hpos]
      rfl
    · simp [hpos]

theorem claim_C8_witness :
    (∀ m ∈ [(⟨10, 3, 8, false⟩ : MsgRec)], m.receiver_id ≠ 7 →
        m ∈ (messageReadHandler [⟨10, 3, 8, false⟩] 7 (.vnum 10) (.vnum 3)).messages)
    ∧ ([(⟨10, 3, 8, false⟩ : MsgRec)].countP (fun m => m.id == 10 && m.receiver_id == 7) = 0 →
        (messageReadHandler [⟨10, 3, 8, false⟩] 7 (.vnum 10) (.vnum 3)).emits = []
          ∧ (messageReadHandler [⟨10, 3, 8, false⟩] 7 (.vnum 10) (.vnum 3)).ack
            = ⟨true, some false, none⟩)
    ∧ ((⟨10, 3, 8, false⟩ : MsgRec) ∈ [(⟨10, 3, 8, false⟩ : MsgRec)] →
        (10 : Int) = 10 → (8 : Int) = 7 → (3 : Int) = 3 →
        (messageReadHandler [⟨10, 3, 8, false⟩] 7 (.vnum 10) (.vnum 3)).emits
            = [⟨userRoom 3, "message:read:ack", .readAck 10 7⟩]
          ∧ (messageReadHandler [⟨10, 3, 8, false⟩] 7 (.vnum 10) (.vnum 3)).ack
            = ⟨true, some true, none⟩) :=
  claim_C8 [⟨10, 3, 8, false⟩] 7 10 3 ⟨10, 3, 8, false⟩ (by decide)

/-- C9 (amended): the friend-notification handlers tolerate an offline
counterparty as a silent no-op (success reply, nothing delivered to a
connection outside the target room) and `friend:request:sent` treats a
receiver id absent from *all* tenants as a silent no-op; but the receiver
lookup is `findByPk` with no tenant scoping and the push is addressed by
user id alone, so an id that belongs to a user of a different tenant is
*not* a no-op (see the counterexample); `friend:request:accepted` performs
no lookup at all and notifies unconditionally. -/
theorem claim_C9 (users : List UserRec) (userId : Int) (sender : SenderInfo)
    (rid sid : Int) (M : Memberships) (s : String)
    (hrid : rid ≠ 0) (hsid : sid ≠ 0)
    (hoffr : (s, userRoom rid) ∉ M) (hoffs : (s, userRoom sid) ∉ M) :
    (findUserById users rid = none →
      friendRequestSentHandler users userId sender (.vnum rid) = ⟨[], .ok⟩)
    ∧ (friendRequestSentHandler users userId sender (.vnum rid)).ack = .ok
    ∧ (∀ e ∈ (friendRequestSentHandler users userId sender (.vnum rid)).emits,
        receivesEmit M s e = false)
    ∧ friendRequestAcceptedHandler userId sender (.vnum sid)
        = ⟨[⟨userRoom sid, "friend:request:accepted:notification",
             .friendRequestAccepted userId (senderDisplayName sender)⟩], .ok⟩
    ∧ (∀ e ∈ (friendRequestAcceptedHandler userId sender (.vnum sid)).emits,
        receivesEmit M s e = false) := by
  have hacc : friendRequestAcceptedHandler userId sender (.vnum sid)
      = ⟨[⟨userRoom sid, "friend:request:accepted:notification",
           .friendRequestAccepted userId (senderDisplayName sender)⟩], .ok⟩ := by
    rw [friendRequestAcceptedHandler, if_neg hsid]
  refine ⟨?_, ?_, ?_, hacc, ?_⟩
  · intro hnone
    rw [friendRequestSentHandler, if_neg hrid, hnone]
  · rw [friendRequestSentHandler, if_neg hrid]
    rcases findUserById users rid with _ | u <;> rfl
  · intro e he
    rw [friendRequestSentHandler, if_neg hrid] at he
    rcases hfind : findUserById users rid with _ | u <;> rw [hfind] at he
    · simp at he
    · simp only [List.mem_singleton] at he
      subst he
      exact receivesEmit_of_not_mem M s _ hoffr
  · intro e he
    rw [hacc] at he
    simp only [List.mem_singleton] at he
    subst he
    exact receivesEmit_of_not_mem M s _ hoffs

theorem claim_C9_witness :
    (findUserById [⟨42, 2, true, "eve", "Eve", "X"⟩] 9 = none →
      friendRequestSentHandler [⟨42, 2, true, "eve", "Eve", "X"⟩] 7 senderA (.vnum 9)
        = ⟨[], .ok⟩)
    ∧ (friendRequestSentHandler [⟨42, 2, true, "eve", "Eve", "X"⟩] 7 senderA (.vnum 9)).ack
        = .ok
    ∧ (∀ e ∈ (friendRequestSentHandler [⟨42, 2, true, "eve", "Eve", "X"⟩] 7 senderA
          (.vnum 9)).emits, receivesEmit [] "conn" e = false)
    ∧ friendRequestAcceptedHandler 7 senderA (.vnum 11)
        = ⟨[⟨userRoom 11, "friend:request:accepted:notification",
             .friendRequestAccepted 7 (senderDisplayName senderA)⟩], .ok⟩
    ∧ (∀ e ∈ (friendRequestAcceptedHandler 7 senderA (.vnum 11)).emits,
        receivesEmit [] "conn" e = false) :=
  claim_C9 [⟨42, 2, true, "eve", "Eve", "X"⟩] 7 senderA 9 11 [] "conn"
    (by decide) (by decide) (by decide) (by decide)

/-- C9 counterexample: user 42 exists in tenant 2 and is online; a user of
tenant 1 issues `friend:request:sent` naming 42. The handler's
tenant-unscoped `findByPk` finds the user and the `friend:request:received`
notification is delivered to tenant 2's connection — refuting "no
friend-request notification is delivered to any user of a different
tenant". -/
theorem claim_C9_cex :
    friendRequestSentHandler [⟨42, 2, true, "eve", "Eve", "X"⟩] 7 senderA (.vnum 42)
      = ⟨[⟨userRoom 42, "friend:request:received",
           .friendRequestReceived 7 "Alice A"⟩], .ok⟩
    ∧ receivesEmit (connectSocket [] "s42" 2 42) "s42"
        ⟨userRoom 42, "friend:request:received", .friendRequestReceived 7 "Alice A"⟩
      = true := by
  refine ⟨by decide, by decide⟩

/-- C10: the client's post-reconnect replay path never removes an entry from
`pendingMessages` — whatever acknowledgments the server returns to the
replayed sends (success included), the map is unchanged, the entry is still
pending, and the next reconnection replays exactly the same sends — whereas
the interactive `sendMessage` acknowledgment path does delete the entry on
success. -/
theorem claim_C10 (pending : PendingMap) (responses : List SendAck) (tid : Int)
    (d : PendingData) (h : lookupPending pending tid = some d) :
    resendWithAcks pending responses = pending
    ∧ lookupPending (resendWithAcks pending responses) tid = some d
    ∧ (⟨d.receiverId, jsTrim d.content⟩ : SendEmit) ∈ (resendPendingMessages pending).2
    ∧ (resendPendingMessages (resendWithAcks pending responses)).2
        = (resendPendingMessages pending).2
    ∧ lookupPending (sendMessageAck pending tid true) tid = none := by
  refine ⟨resendWithAcks_eq pending responses, ?_, ?_, ?_, ?_⟩
  · rw [resendWithAcks_eq]
    exact h
  · rw [lookupPending] at h
    rcases hfind : List.find? (fun e => e.1 == tid) pending with _ | entry
    · rw [hfind] at h
      simp at h
    · rw [hfind] at h
      have hmem : entry ∈ pending := List.mem_of_find?_eq_some hfind
      have hd : entry.2 = d := by simpa using h
      rw [resendPendingMessages]
      exact List.mem_map.mpr ⟨entry, hmem, by rw [hd]⟩
  · rw [resendWithAcks_eq]
  · rw [sendMessageAck, if_pos rfl]
    exact lookupPending_erase pending tid

theorem claim_C10_witness :
    resendWithAcks [(5, ⟨"hi", 9, 5⟩)] [.err "Internal server error" none] = [(5, ⟨"hi", 9, 5⟩)]
    ∧ lookupPending (resendWithAcks [(5, ⟨"hi", 9, 5⟩)] [.err "Internal server error" none]) 5
        = some ⟨"hi", 9, 5⟩
    ∧ (⟨9, jsTrim "hi"⟩ : SendEmit) ∈ (resendPendingMessages [(5, ⟨"hi", 9, 5⟩)]).2
    ∧ (resendPendingMessages
          (resendWithAcks [(5, ⟨"hi", 9, 5⟩)] [.err "Internal server error" none])).2
        = (resendPendingMessages [(5, ⟨"hi", 9, 5⟩)]).2
    ∧ lookupPending (sendMessageAck [(5, ⟨"hi", 9, 5⟩)] 5 true) 5 = none :=
  claim_C10 [(5, ⟨"hi", 9, 5⟩)] [.err "Internal server error" none] 5 ⟨"hi", 9, 5⟩ (by decide)
